import Mathlib

/-!
Shallow embedding of the `minimi` in-memory board manager (`minimi.py`) and
proofs about its operations.

Modelling conventions, chosen once and used throughout:

* Python `dict[int, V]` values (a Board's `issues` and `sprints` maps, the
  manager's `boards` and `users` maps) are embedded as insertion-ordered
  association lists `List (Nat × V)`.  `alist_insert` mirrors
  `d[k] = v` (update in place if the key is present, append otherwise),
  `alist_pop` mirrors `d.pop(k, None)`, `alist_lookup` mirrors `d[k]` /
  `d.get(k)`, and `l.map Prod.snd` mirrors `d.values()`.
* `datetime.datetime.utcnow().isoformat()` is embedded as an explicit
  `now : String` argument threaded to every operation that reads the clock.
  Genuine `isoformat()` outputs are never the empty string; hypotheses of
  the form `t ≠ ""` record this fact where Python truthiness matters.
* A Python `KeyError` raised by a failed `d[k]` subscript is embedded as
  `Except.error (Err.notFound kind k)`: the failing lookup site determines
  the entity kind, the key is the missing identifier.  `Err` has no other
  constructor, mirroring the absence of any other raise site in the core.
* The process-global `_id_counter = itertools.count(1)` is embedded as the
  `next_id` field of the manager state (there is a single manager instance
  in scope, so instance-local and process-global coincide).
* `export_board` / `import_board` are embedded at the level of the
  structured JSON payload (section 6 of the spec): `json.dumps` and
  `json.loads` are assumed to be mutually inverse on these payloads.
  Integer dict keys that `json.dumps` string-encodes and `import_board`
  re-parses with `int(...)` are kept as `Nat` keys.  Fields read through
  `payload.get(key, default)` become `Option` fields (JSON `null` and an
  absent key both map to `none`, exactly as `.get` returns `None` for
  both).
-/

set_option maxRecDepth 4096

/-- Lookup in an insertion-ordered association list, mirroring Python
`d.get(k)` (and `d[k]`, whose `KeyError` case corresponds to `none`). -/
def alist_lookup {α : Type} (l : List (Nat × α)) (k : Nat) : Option α :=
  match l with
  | [] => none
  | (k', v) :: t => if k' = k then some v else alist_lookup t k

/-- Assignment `d[k] = v` on a Python dict: replace in place when the key is
present, append otherwise. -/
def alist_insert {α : Type} (l : List (Nat × α)) (k : Nat) (v : α) : List (Nat × α) :=
  match l with
  | [] => [(k, v)]
  | (k', v') :: t => if k' = k then (k, v) :: t else (k', v') :: alist_insert t k v

/-- `d.pop(k, None)` on a Python dict: drop the entry with key `k` if present. -/
def alist_pop {α : Type} (l : List (Nat × α)) (k : Nat) : List (Nat × α) :=
  match l with
  | [] => []
  | (k', v') :: t => if k' = k then t else (k', v') :: alist_pop t k

theorem alist_lookup_insert_self {α : Type} (l : List (Nat × α)) (k : Nat) (v : α) :
    alist_lookup (alist_insert l k v) k = some v := by
  induction l with
  | nil => simp [alist_insert, alist_lookup]
  | cons p t ih =>
    obtain ⟨k', v'⟩ := p
    by_cases h : k' = k <;> simp [alist_insert, alist_lookup, h, ih]

theorem alist_lookup_insert_ne {α : Type} (l : List (Nat × α)) (k k' : Nat) (v : α)
    (h : k' ≠ k) : alist_lookup (alist_insert l k v) k' = alist_lookup l k' := by
  induction l with
  | nil => simp [alist_insert, alist_lookup, Ne.symm h]
  | cons p t ih =>
    obtain ⟨a, b⟩ := p
    by_cases ha : a = k
    · subst ha
      simp [alist_insert, alist_lookup, Ne.symm h]
    · simp [alist_insert, alist_lookup, ha, ih]

theorem alist_lookup_insert_isSome {α : Type} (l : List (Nat × α)) (k k' : Nat) (v : α)
    (h : (alist_lookup l k').isSome) :
    (alist_lookup (alist_insert l k v) k').isSome := by
  by_cases hk : k' = k
  · subst hk; simp [alist_lookup_insert_self]
  · rwa [alist_lookup_insert_ne l k k' v hk]

theorem alist_insert_lookup_eq {α : Type} (l : List (Nat × α)) (k : Nat) (v : α)
    (h : alist_lookup l k = some v) : alist_insert l k v = l := by
  induction l with
  | nil => simp [alist_lookup] at h
  | cons p t ih =>
    obtain ⟨a, b⟩ := p
    by_cases ha : a = k
    · subst ha
      simp [alist_lookup] at h
      simp [alist_insert, h]
    · simp [alist_lookup, ha] at h
      simp [alist_insert, ha, ih h]

theorem alist_mem_insert {α : Type} {l : List (Nat × α)} {k : Nat} {v : α} {p : Nat × α}
    (h : p ∈ alist_insert l k v) : p = (k, v) ∨ p ∈ l := by
  induction l with
  | nil => simpa [alist_insert] using h
  | cons q t ih =>
    obtain ⟨a, b⟩ := q
    by_cases ha : a = k
    · subst ha
      simp [alist_insert] at h
      rcases h with h | h
      · exact Or.inl (by simp [h])
      · exact Or.inr (by simp [h])
    · simp [alist_insert, ha] at h
      rcases h with h | h
      · exact Or.inr (by simp [h])
      · rcases ih h with h' | h'
        · exact Or.inl h'
        · exact Or.inr (by simp [h'])

theorem alist_mem_pop {α : Type} {l : List (Nat × α)} {k : Nat} {p : Nat × α}
    (h : p ∈ alist_pop l k) : p ∈ l := by
  induction l with
  | nil => simpa [alist_pop] using h
  | cons q t ih =>
    obtain ⟨a, b⟩ := q
    by_cases ha : a = k
    · subst ha
      simp [alist_pop] at h
      simp [h]
    · simp [alist_pop, ha] at h
      rcases h with h | h
      · simp [h]
      · simp [ih h]

theorem alist_lookup_pop_ne {α : Type} (l : List (Nat × α)) (k k' : Nat)
    (h : k' ≠ k) : alist_lookup (alist_pop l k) k' = alist_lookup l k' := by
  induction l with
  | nil => simp [alist_pop]
  | cons q t ih =>
    obtain ⟨a, b⟩ := q
    by_cases ha : a = k
    · subst ha
      simp [alist_pop, alist_lookup, Ne.symm h]
    · simp [alist_pop, alist_lookup, ha, ih]

theorem alist_lookup_mem {α : Type} {l : List (Nat × α)} {k : Nat} {v : α}
    (h : alist_lookup l k = some v) : (k, v) ∈ l := by
  induction l with
  | nil => simp [alist_lookup] at h
  | cons q t ih =>
    obtain ⟨a, b⟩ := q
    by_cases ha : a = k
    · subst ha
      simp [alist_lookup] at h
      simp [h]
    · simp [alist_lookup, ha] at h
      simp [ih h]

theorem alist_insert_not_mem_keys {α : Type} (l : List (Nat × α)) (k : Nat) (v : α)
    (h : k ∉ l.map Prod.fst) : alist_insert l k v = l ++ [(k, v)] := by
  induction l with
  | nil => simp [alist_insert]
  | cons q t ih =>
    obtain ⟨a, b⟩ := q
    rw [List.map_cons, List.mem_cons] at h
    push_neg at h
    simp [alist_insert, Ne.symm h.1, ih h.2]

deriving instance DecidableEq for Except

/-- The entity kind recorded by a failed identifier lookup. -/
inductive EntityKind where
  | board
  | issue
  | sprint
  deriving DecidableEq, Repr

/-- The single error kind of the core: a `KeyError` raised by dereferencing a
board / issue / sprint identifier absent from the store. -/
inductive Err where
  | notFound (kind : EntityKind) (id : Nat)
  deriving DecidableEq, Repr

/-- `User` dataclass. -/
structure User where
  id : Nat
  name : String
  deriving DecidableEq, Repr

/-- `Comment` dataclass. -/
structure Comment where
  id : Nat
  author_id : Nat
  body : String
  created_at : String
  deriving DecidableEq, Repr

/-- `Issue` dataclass. -/
structure Issue where
  id : Nat
  title : String
  description : String
  status : String
  assignee_id : Option Nat
  labels : List String
  priority : Int
  comments : List Comment
  created_at : String
  updated_at : String
  deriving DecidableEq, Repr

/-- `Sprint` dataclass. -/
structure Sprint where
  id : Nat
  name : String
  start_at : Option String
  end_at : Option String
  issues : List Nat
  active : Bool
  deriving DecidableEq, Repr

/-- `Board` dataclass. -/
structure Board where
  id : Nat
  name : String
  projects : List String
  issues : List (Nat × Issue)
  sprints : List (Nat × Sprint)
  deriving DecidableEq, Repr

/-- The mutable state of a `BoardManager` instance together with the
identifier counter (`_id_counter`, which starts at 1). -/
structure BoardManager where
  boards : List (Nat × Board)
  users : List (Nat × User)
  next_id : Nat
  deriving DecidableEq, Repr

/-- A freshly constructed `BoardManager()` with the counter at its start. -/
def init_state : BoardManager := { boards := [], users := [], next_id := 1 }

/-- One keyword argument accepted by `update_issue(**fields)`.  Python's
`hasattr`/`setattr` loop recognizes exactly the dataclass attributes of
`Issue` (including `id`, `comments` and the timestamps) and silently skips
any other key; `unknown` stands for such an unrecognized key.  The embedding
covers the type-correct assignments, which is what every caller in the
repository performs. -/
inductive FieldUpdate where
  | set_id (v : Nat)
  | set_title (v : String)
  | set_description (v : String)
  | set_status (v : String)
  | set_assignee_id (v : Option Nat)
  | set_labels (v : List String)
  | set_priority (v : Int)
  | set_comments (v : List Comment)
  | set_created_at (v : String)
  | set_updated_at (v : String)
  | unknown (key : String)
  deriving DecidableEq, Repr

/-- One iteration of the `for k, v in fields.items(): if hasattr(issue, k):
setattr(issue, k, v)` loop of `update_issue`. -/
def apply_field (i : Issue) : FieldUpdate → Issue
  | .set_id v => { i with id := v }
  | .set_title v => { i with title := v }
  | .set_description v => { i with description := v }
  | .set_status v => { i with status := v }
  | .set_assignee_id v => { i with assignee_id := v }
  | .set_labels v => { i with labels := v }
  | .set_priority v => { i with priority := v }
  | .set_comments v => { i with comments := v }
  | .set_created_at v => { i with created_at := v }
  | .set_updated_at v => { i with updated_at := v }
  | .unknown _ => i

/-- `self.boards[board_id]`, the subscript shared by every board-scoped
operation. -/
def get_board (m : BoardManager) (board_id : Nat) : Except Err Board :=
  match alist_lookup m.boards board_id with
  | some b => Except.ok b
  | none => Except.error (Err.notFound EntityKind.board board_id)

/-- `BoardManager.create_board`. -/
def create_board (m : BoardManager) (name : String) : Board × BoardManager :=
  let b : Board := { id := m.next_id, name := name, projects := [], issues := [], sprints := [] }
  (b, { m with boards := alist_insert m.boards b.id b, next_id := m.next_id + 1 })

/-- `BoardManager.add_project`. -/
def add_project (m : BoardManager) (board_id : Nat) (project_name : String) :
    Except Err BoardManager :=
  match alist_lookup m.boards board_id with
  | none => Except.error (Err.notFound EntityKind.board board_id)
  | some board =>
    if project_name ∈ board.projects then Except.ok m
    else
      let board' := { board with projects := board.projects ++ [project_name] }
      Except.ok { m with boards := alist_insert m.boards board_id board' }

/-- `BoardManager.create_user`. -/
def create_user (m : BoardManager) (name : String) : User × BoardManager :=
  let u : User := { id := m.next_id, name := name }
  (u, { m with users := alist_insert m.users u.id u, next_id := m.next_id + 1 })

/-- `BoardManager.create_issue`; `labels.getD []` mirrors `labels or []`. -/
def create_issue (m : BoardManager) (board_id : Nat) (title description : String)
    (assignee_id : Option Nat) (labels : Option (List String)) (priority : Int)
    (now : String) : Except Err (Issue × BoardManager) :=
  match alist_lookup m.boards board_id with
  | none => Except.error (Err.notFound EntityKind.board board_id)
  | some board =>
    let issue : Issue :=
      { id := m.next_id, title := title, description := description,
        status := "todo", assignee_id := assignee_id, labels := labels.getD [],
        priority := priority, comments := [], created_at := now, updated_at := now }
    let board' := { board with issues := alist_insert board.issues issue.id issue }
    let m' : BoardManager :=
      { m with boards := alist_insert m.boards board_id board', next_id := m.next_id + 1 }
    Except.ok (issue, m')

/-- `BoardManager.get_issue`. -/
def get_issue (m : BoardManager) (board_id issue_id : Nat) : Except Err Issue :=
  match alist_lookup m.boards board_id with
  | none => Except.error (Err.notFound EntityKind.board board_id)
  | some board =>
    match alist_lookup board.issues issue_id with
    | none => Except.error (Err.notFound EntityKind.issue issue_id)
    | some i => Except.ok i

/-- `BoardManager.update_issue`: apply the recognized fields in order, then
unconditionally refresh `updated_at`. -/
def update_issue (m : BoardManager) (board_id issue_id : Nat) (fields : List FieldUpdate)
    (now : String) : Except Err (Issue × BoardManager) :=
  match alist_lookup m.boards board_id with
  | none => Except.error (Err.notFound EntityKind.board board_id)
  | some board =>
    match alist_lookup board.issues issue_id with
    | none => Except.error (Err.notFound EntityKind.issue issue_id)
    | some issue =>
      let issue' := { fields.foldl apply_field issue with updated_at := now }
      let board' := { board with issues := alist_insert board.issues issue_id issue' }
      Except.ok (issue', { m with boards := alist_insert m.boards board_id board' })

/-- `BoardManager.delete_issue`: pop the issue, then erase the identifier
from each sprint of the board that contains it. -/
def delete_issue (m : BoardManager) (board_id issue_id : Nat) : Except Err BoardManager :=
  match alist_lookup m.boards board_id with
  | none => Except.error (Err.notFound EntityKind.board board_id)
  | some board =>
    let issues' := alist_pop board.issues issue_id
    let sprints' := board.sprints.map (fun q =>
      (q.1, if issue_id ∈ q.2.issues then { q.2 with issues := q.2.issues.erase issue_id }
            else q.2))
    let board' := { board with issues := issues', sprints := sprints' }
    Except.ok { m with boards := alist_insert m.boards board_id board' }

/-- Stable insertion step: place `x` after every element whose priority is
strictly below its own and before the rest, so that under `List.foldr` an
earlier element precedes every later element of equal priority. -/
def priority_insert (x : Issue) : List Issue → List Issue
  | [] => [x]
  | y :: t => if y.priority < x.priority then y :: priority_insert x t else x :: y :: t

/-- `issues.sort(key=lambda i: i.priority)`: Python's `list.sort` is a stable
ascending sort, embedded as a stable insertion sort (an ascending stable
sort by a key is unique, so any stable sorting algorithm yields this very
output). -/
def priority_sort (l : List Issue) : List Issue := l.foldr priority_insert []

/-- `BoardManager.list_issues`.  The `status` and `labels` guards mirror
Python truthiness (`if status:` / `if labels:`): a `none`, an empty string
and an empty list all skip the corresponding filter; the `assignee_id`
guard mirrors `is not None`. -/
def list_issues (m : BoardManager) (board_id : Nat) (status : Option String)
    (assignee_id : Option Nat) (labels : Option (List String))
    (sort_by_priority : Bool) : Except Err (List Issue) :=
  match alist_lookup m.boards board_id with
  | none => Except.error (Err.notFound EntityKind.board board_id)
  | some board =>
    let issues := board.issues.map Prod.snd
    let issues := match status with
      | none => issues
      | some st => if st = "" then issues else issues.filter (fun i => i.status == st)
    let issues := match assignee_id with
      | none => issues
      | some a => issues.filter (fun i => i.assignee_id == some a)
    let issues := match labels with
      | none => issues
      | some ls =>
        if ls = [] then issues
        else issues.filter (fun i => ls.all (fun l => decide (l ∈ i.labels)))
    Except.ok (if sort_by_priority then priority_sort issues else issues)

/-- `BoardManager.add_label`: append only when absent, refreshing
`updated_at` only in that case. -/
def add_label (m : BoardManager) (board_id issue_id : Nat) (label : String)
    (now : String) : Except Err (Issue × BoardManager) :=
  match alist_lookup m.boards board_id with
  | none => Except.error (Err.notFound EntityKind.board board_id)
  | some board =>
    match alist_lookup board.issues issue_id with
    | none => Except.error (Err.notFound EntityKind.issue issue_id)
    | some issue =>
      if label ∈ issue.labels then Except.ok (issue, m)
      else
        let issue' := { issue with labels := issue.labels ++ [label], updated_at := now }
        let board' := { board with issues := alist_insert board.issues issue_id issue' }
        Except.ok (issue', { m with boards := alist_insert m.boards board_id board' })

/-- `BoardManager.remove_label`: erase only when present, refreshing
`updated_at` only in that case. -/
def remove_label (m : BoardManager) (board_id issue_id : Nat) (label : String)
    (now : String) : Except Err (Issue × BoardManager) :=
  match alist_lookup m.boards board_id with
  | none => Except.error (Err.notFound EntityKind.board board_id)
  | some board =>
    match alist_lookup board.issues issue_id with
    | none => Except.error (Err.notFound EntityKind.issue issue_id)
    | some issue =>
      if label ∈ issue.labels then
        let issue' := { issue with labels := issue.labels.erase label, updated_at := now }
        let board' := { board with issues := alist_insert board.issues issue_id issue' }
        Except.ok (issue', { m with boards := alist_insert m.boards board_id board' })
      else Except.ok (issue, m)

/-- `BoardManager.add_comment`: allocates a fresh identifier for the
comment, appends it, refreshes `updated_at`. -/
def add_comment (m : BoardManager) (board_id issue_id author_id : Nat)
    (body now : String) : Except Err (Comment × BoardManager) :=
  match alist_lookup m.boards board_id with
  | none => Except.error (Err.notFound EntityKind.board board_id)
  | some board =>
    match alist_lookup board.issues issue_id with
    | none => Except.error (Err.notFound EntityKind.issue issue_id)
    | some issue =>
      let c : Comment := { id := m.next_id, author_id := author_id, body := body,
                           created_at := now }
      let issue' := { issue with comments := issue.comments ++ [c], updated_at := now }
      let board' := { board with issues := alist_insert board.issues issue_id issue' }
      let m' : BoardManager :=
        { m with boards := alist_insert m.boards board_id board', next_id := m.next_id + 1 }
      Except.ok (c, m')

/-- `BoardManager.assign_issue`, a wrapper over `update_issue`. -/
def assign_issue (m : BoardManager) (board_id issue_id : Nat) (user_id : Option Nat)
    (now : String) : Except Err (Issue × BoardManager) :=
  update_issue m board_id issue_id [FieldUpdate.set_assignee_id user_id] now

/-- `BoardManager.move_issue`, a wrapper over `update_issue`. -/
def move_issue (m : BoardManager) (board_id issue_id : Nat) (new_status : String)
    (now : String) : Except Err (Issue × BoardManager) :=
  update_issue m board_id issue_id [FieldUpdate.set_status new_status] now

/-- `BoardManager.prioritize_issue`, a wrapper over `update_issue`. -/
def prioritize_issue (m : BoardManager) (board_id issue_id : Nat) (priority : Int)
    (now : String) : Except Err (Issue × BoardManager) :=
  update_issue m board_id issue_id [FieldUpdate.set_priority priority] now

/-- `BoardManager.create_sprint`. -/
def create_sprint (m : BoardManager) (board_id : Nat) (name : String) :
    Except Err (Sprint × BoardManager) :=
  match alist_lookup m.boards board_id with
  | none => Except.error (Err.notFound EntityKind.board board_id)
  | some board =>
    let s : Sprint := { id := m.next_id, name := name, start_at := none, end_at := none,
                        issues := [], active := false }
    let board' := { board with sprints := alist_insert board.sprints s.id s }
    let m' : BoardManager :=
      { m with boards := alist_insert m.boards board_id board', next_id := m.next_id + 1 }
    Except.ok (s, m')

/-- `BoardManager.add_issue_to_sprint`: append only when the issue id is not
already listed and is a key of the board's issues map; otherwise a silent
no-op (an unknown issue id does not raise). -/
def add_issue_to_sprint (m : BoardManager) (board_id sprint_id issue_id : Nat) :
    Except Err BoardManager :=
  match alist_lookup m.boards board_id with
  | none => Except.error (Err.notFound EntityKind.board board_id)
  | some board =>
    match alist_lookup board.sprints sprint_id with
    | none => Except.error (Err.notFound EntityKind.sprint sprint_id)
    | some sprint =>
      if issue_id ∉ sprint.issues ∧ (alist_lookup board.issues issue_id).isSome then
        let sprint' := { sprint with issues := sprint.issues ++ [issue_id] }
        let board' := { board with sprints := alist_insert board.sprints sprint_id sprint' }
        Except.ok { m with boards := alist_insert m.boards board_id board' }
      else Except.ok m

/-- `BoardManager.remove_issue_from_sprint`: erase when present, no-op
otherwise. -/
def remove_issue_from_sprint (m : BoardManager) (board_id sprint_id issue_id : Nat) :
    Except Err BoardManager :=
  match alist_lookup m.boards board_id with
  | none => Except.error (Err.notFound EntityKind.board board_id)
  | some board =>
    match alist_lookup board.sprints sprint_id with
    | none => Except.error (Err.notFound EntityKind.sprint sprint_id)
    | some sprint =>
      if issue_id ∈ sprint.issues then
        let sprint' := { sprint with issues := sprint.issues.erase issue_id }
        let board' := { board with sprints := alist_insert board.sprints sprint_id sprint' }
        Except.ok { m with boards := alist_insert m.boards board_id board' }
      else Except.ok m

/-- `sprint.start_at or now`: Python `or` keeps the old value only when it
is a non-empty string. -/
def start_at_or (old : Option String) (now : String) : Option String :=
  match old with
  | none => some now
  | some t => if t = "" then some now else some t

/-- `BoardManager.start_sprint`: set `active`, set `start_at` to `now` only
when it was previously falsy. -/
def start_sprint (m : BoardManager) (board_id sprint_id : Nat) (now : String) :
    Except Err (Sprint × BoardManager) :=
  match alist_lookup m.boards board_id with
  | none => Except.error (Err.notFound EntityKind.board board_id)
  | some board =>
    match alist_lookup board.sprints sprint_id with
    | none => Except.error (Err.notFound EntityKind.sprint sprint_id)
    | some sprint =>
      let sprint' := { sprint with active := true, start_at := start_at_or sprint.start_at now }
      let board' := { board with sprints := alist_insert board.sprints sprint_id sprint' }
      Except.ok (sprint', { m with boards := alist_insert m.boards board_id board' })

/-- `BoardManager.close_sprint`: clear `active`, always overwrite `end_at`. -/
def close_sprint (m : BoardManager) (board_id sprint_id : Nat) (now : String) :
    Except Err (Sprint × BoardManager) :=
  match alist_lookup m.boards board_id with
  | none => Except.error (Err.notFound EntityKind.board board_id)
  | some board =>
    match alist_lookup board.sprints sprint_id with
    | none => Except.error (Err.notFound EntityKind.sprint sprint_id)
    | some sprint =>
      let sprint' := { sprint with active := false, end_at := some now }
      let board' := { board with sprints := alist_insert board.sprints sprint_id sprint' }
      Except.ok (sprint', { m with boards := alist_insert m.boards board_id board' })

/-- Occurrence of `needle` at the head of `hay` (character lists). -/
def sub_at_head : List Char → List Char → Bool
  | [], _ => true
  | _ :: _, [] => false
  | c :: cs, d :: ds => c == d && sub_at_head cs ds

/-- Python substring containment `needle in hay` on character lists. -/
def sub_contains (needle : List Char) : List Char → Bool
  | [] => sub_at_head needle []
  | d :: t => sub_at_head needle (d :: t) || sub_contains needle t

/-- `BoardManager.search_issues`: case-insensitive substring match against
title or description. -/
def search_issues (m : BoardManager) (board_id : Nat) (query : String) :
    Except Err (List Issue) :=
  match alist_lookup m.boards board_id with
  | none => Except.error (Err.notFound EntityKind.board board_id)
  | some board =>
    let q := query.toLower
    Except.ok ((board.issues.map Prod.snd).filter (fun i =>
      sub_contains q.data i.title.toLower.data || sub_contains q.data i.description.toLower.data))

/-- Serialized `Comment` object: `asdict` always emits all four fields, and
`Comment(**c)` falls back to a fresh timestamp when `created_at` is absent. -/
structure CommentPayload where
  id : Nat
  author_id : Nat
  body : String
  created_at : Option String
  deriving DecidableEq, Repr

/-- Serialized `Issue` object.  `title` is read with a mandatory subscript;
every other field goes through `.get` with the dataclass default.  The `id`
field is written by `asdict` but never read back: `import_board` takes the
issue id from the map key. -/
structure IssuePayload where
  id : Nat
  title : String
  description : Option String
  status : Option String
  assignee_id : Option Nat
  labels : Option (List String)
  priority : Option Int
  comments : Option (List CommentPayload)
  created_at : Option String
  updated_at : Option String
  deriving DecidableEq, Repr

/-- Serialized `Sprint` object.  As for issues, the `id` field is written on
export but the map key wins on re-import. -/
structure SprintPayload where
  id : Nat
  name : String
  start_at : Option String
  end_at : Option String
  issues : Option (List Nat)
  active : Option Bool
  deriving DecidableEq, Repr

/-- Serialized `Board` object, the structured form behind the JSON text. -/
structure BoardPayload where
  id : Option Nat
  name : String
  projects : Option (List String)
  issues : Option (List (Nat × IssuePayload))
  sprints : Option (List (Nat × SprintPayload))
  deriving DecidableEq, Repr

/-- `asdict` on a `Comment`. -/
def comment_to_payload (c : Comment) : CommentPayload :=
  { id := c.id, author_id := c.author_id, body := c.body, created_at := some c.created_at }

/-- `asdict` on an `Issue`. -/
def issue_to_payload (i : Issue) : IssuePayload :=
  { id := i.id, title := i.title, description := some i.description,
    status := some i.status, assignee_id := i.assignee_id, labels := some i.labels,
    priority := some i.priority, comments := some (i.comments.map comment_to_payload),
    created_at := some i.created_at, updated_at := some i.updated_at }

/-- `asdict` on a `Sprint`. -/
def sprint_to_payload (s : Sprint) : SprintPayload :=
  { id := s.id, name := s.name, start_at := s.start_at, end_at := s.end_at,
    issues := some s.issues, active := some s.active }

/-- The serializable dict built by `export_board` from a `Board`. -/
def board_to_payload (b : Board) : BoardPayload :=
  { id := some b.id, name := b.name, projects := some b.projects,
    issues := some (b.issues.map (fun p => (p.1, issue_to_payload p.2))),
    sprints := some (b.sprints.map (fun p => (p.1, sprint_to_payload p.2))) }

/-- `BoardManager.export_board` (up to the `json.dumps` text encoding). -/
def export_board (m : BoardManager) (board_id : Nat) : Except Err BoardPayload :=
  match alist_lookup m.boards board_id with
  | none => Except.error (Err.notFound EntityKind.board board_id)
  | some board => Except.ok (board_to_payload board)

/-- `Comment(**c)` on a deserialized comment dict. -/
def comment_of_payload (now : String) (c : CommentPayload) : Comment :=
  { id := c.id, author_id := c.author_id, body := c.body,
    created_at := c.created_at.getD now }

/-- The `Issue(...)` reconstruction inside `import_board`: the map key
becomes the id, absent optional fields get the documented defaults. -/
def issue_of_payload (now : String) (k : Nat) (p : IssuePayload) : Issue :=
  { id := k, title := p.title, description := p.description.getD "",
    status := p.status.getD "todo", assignee_id := p.assignee_id,
    labels := p.labels.getD [], priority := p.priority.getD 100,
    comments := (p.comments.getD []).map (comment_of_payload now),
    created_at := p.created_at.getD now, updated_at := p.updated_at.getD now }

/-- The `Sprint(...)` reconstruction inside `import_board`. -/
def sprint_of_payload (k : Nat) (p : SprintPayload) : Sprint :=
  { id := k, name := p.name, start_at := p.start_at, end_at := p.end_at,
    issues := p.issues.getD [], active := p.active.getD false }

/-- `BoardManager.import_board` (up to the `json.loads` text decoding).
`payload.get("id", _next_id())` evaluates its default argument eagerly, so
one counter value is consumed on every import even when the payload carries
its own id; the fresh value is used only when the payload id is absent.
The reconstructed board is registered under its id with no referential
validation of sprint issue lists. -/
def import_board (m : BoardManager) (payload : BoardPayload) (now : String) :
    Board × BoardManager :=
  let fresh := m.next_id
  let bid := payload.id.getD fresh
  let issues := (payload.issues.getD []).foldl
    (fun acc p => alist_insert acc p.1 (issue_of_payload now p.1 p.2)) []
  let sprints := (payload.sprints.getD []).foldl
    (fun acc p => alist_insert acc p.1 (sprint_of_payload p.1 p.2)) []
  let board : Board := { id := bid, name := payload.name,
                         projects := payload.projects.getD [],
                         issues := issues, sprints := sprints }
  (board, { m with boards := alist_insert m.boards bid board, next_id := m.next_id + 1 })

/-- One public mutating call on the manager, with its arguments.  Query
operations (`get_issue`, `list_issues`, `search_issues`, `export_board`) do
not change the state and so do not appear. -/
inductive Op where
  | create_board (name : String)
  | add_project (board_id : Nat) (project_name : String)
  | create_user (name : String)
  | create_issue (board_id : Nat) (title description : String)
      (assignee_id : Option Nat) (labels : Option (List String)) (priority : Int)
  | update_issue (board_id issue_id : Nat) (fields : List FieldUpdate)
  | delete_issue (board_id issue_id : Nat)
  | add_label (board_id issue_id : Nat) (label : String)
  | remove_label (board_id issue_id : Nat) (label : String)
  | add_comment (board_id issue_id author_id : Nat) (body : String)
  | assign_issue (board_id issue_id : Nat) (user_id : Option Nat)
  | move_issue (board_id issue_id : Nat) (new_status : String)
  | prioritize_issue (board_id issue_id : Nat) (priority : Int)
  | create_sprint (board_id : Nat) (name : String)
  | add_issue_to_sprint (board_id sprint_id issue_id : Nat)
  | remove_issue_from_sprint (board_id sprint_id issue_id : Nat)
  | start_sprint (board_id sprint_id : Nat)
  | close_sprint (board_id sprint_id : Nat)
  | import_board (payload : BoardPayload)
  deriving Repr

/-- Whether the operation is an `import_board` call. -/
def Op.is_import : Op → Bool
  | .import_board _ => true
  | _ => false

/-- Execute one call at time `now`.  A call that raises (all raise sites
precede all mutations in the source) leaves the state unchanged. -/
def run_op (m : BoardManager) (o : Op) (now : String) : BoardManager :=
  match o with
  | .create_board name => (create_board m name).2
  | .add_project bid pn =>
    match add_project m bid pn with | .ok m' => m' | .error _ => m
  | .create_user name => (create_user m name).2
  | .create_issue bid title descr asg lbs pr =>
    match create_issue m bid title descr asg lbs pr now with
    | .ok r => r.2 | .error _ => m
  | .update_issue bid iid flds =>
    match update_issue m bid iid flds now with | .ok r => r.2 | .error _ => m
  | .delete_issue bid iid =>
    match delete_issue m bid iid with | .ok m' => m' | .error _ => m
  | .add_label bid iid lab =>
    match add_label m bid iid lab now with | .ok r => r.2 | .error _ => m
  | .remove_label bid iid lab =>
    match remove_label m bid iid lab now with | .ok r => r.2 | .error _ => m
  | .add_comment bid iid aid body =>
    match add_comment m bid iid aid body now with | .ok r => r.2 | .error _ => m
  | .assign_issue bid iid uid =>
    match assign_issue m bid iid uid now with | .ok r => r.2 | .error _ => m
  | .move_issue bid iid st =>
    match move_issue m bid iid st now with | .ok r => r.2 | .error _ => m
  | .prioritize_issue bid iid pr =>
    match prioritize_issue m bid iid pr now with | .ok r => r.2 | .error _ => m
  | .create_sprint bid name =>
    match create_sprint m bid name with | .ok r => r.2 | .error _ => m
  | .add_issue_to_sprint bid sid iid =>
    match add_issue_to_sprint m bid sid iid with | .ok m' => m' | .error _ => m
  | .remove_issue_from_sprint bid sid iid =>
    match remove_issue_from_sprint m bid sid iid with | .ok m' => m' | .error _ => m
  | .start_sprint bid sid =>
    match start_sprint m bid sid now with | .ok r => r.2 | .error _ => m
  | .close_sprint bid sid =>
    match close_sprint m bid sid now with | .ok r => r.2 | .error _ => m
  | .import_board p => (import_board m p now).2

/-- The identifiers drawn from the counter and assigned to a new entity by
one call (`create_board`, `create_user`, `create_issue`, `create_sprint`
and `add_comment` are the five assigning calls; a call that raises assigns
nothing, since the failing lookup precedes the `_next_id()` call). -/
def run_op_ids (m : BoardManager) (o : Op) (now : String) : List Nat :=
  match o with
  | .create_board _ => [m.next_id]
  | .create_user _ => [m.next_id]
  | .create_issue bid _ _ _ _ _ =>
    if (alist_lookup m.boards bid).isSome then [m.next_id] else []
  | .create_sprint bid _ =>
    if (alist_lookup m.boards bid).isSome then [m.next_id] else []
  | .add_comment bid iid _ _ =>
    match get_issue m bid iid with | .ok _ => [m.next_id] | .error _ => []
  | _ => []

/-- Run a sequence of timestamped calls. -/
def run_ops (m : BoardManager) : List (Op × String) → BoardManager
  | [] => m
  | (o, t) :: rest => run_ops (run_op m o t) rest

/-- All identifiers assigned over a sequence of calls, in assignment order. -/
def run_ids (m : BoardManager) : List (Op × String) → List Nat
  | [] => []
  | (o, t) :: rest => run_op_ids m o t ++ run_ids (run_op m o t) rest

theorem run_op_next_id_le (m : BoardManager) (o : Op) (now : String) :
    m.next_id ≤ (run_op m o now).next_id := by
  cases o with
  | create_board name => simp [run_op, create_board]
  | create_user name => simp [run_op, create_user]
  | import_board p => simp [run_op, import_board]
  | add_project bid pn =>
    cases hb : alist_lookup m.boards bid with
    | none => simp [run_op, add_project, hb]
    | some b => by_cases hp : pn ∈ b.projects <;> simp [run_op, add_project, hb, hp]
  | create_issue bid title descr asg lbs pr =>
    cases hb : alist_lookup m.boards bid with
    | none => simp [run_op, create_issue, hb]
    | some b => simp [run_op, create_issue, hb]
  | create_sprint bid name =>
    cases hb : alist_lookup m.boards bid with
    | none => simp [run_op, create_sprint, hb]
    | some b => simp [run_op, create_sprint, hb]
  | delete_issue bid iid =>
    cases hb : alist_lookup m.boards bid with
    | none => simp [run_op, delete_issue, hb]
    | some b => simp [run_op, delete_issue, hb]
  | update_issue bid iid flds =>
    cases hb : alist_lookup m.boards bid with
    | none => simp [run_op, update_issue, hb]
    | some b =>
      cases hi : alist_lookup b.issues iid with
      | none => simp [run_op, update_issue, hb, hi]
      | some i => simp [run_op, update_issue, hb, hi]
  | assign_issue bid iid uid =>
    cases hb : alist_lookup m.boards bid with
    | none => simp [run_op, assign_issue, update_issue, hb]
    | some b =>
      cases hi : alist_lookup b.issues iid with
      | none => simp [run_op, assign_issue, update_issue, hb, hi]
      | some i => simp [run_op, assign_issue, update_issue, hb, hi]
  | move_issue bid iid st =>
    cases hb : alist_lookup m.boards bid with
    | none => simp [run_op, move_issue, update_issue, hb]
    | some b =>
      cases hi : alist_lookup b.issues iid with
      | none => simp [run_op, move_issue, update_issue, hb, hi]
      | some i => simp [run_op, move_issue, update_issue, hb, hi]
  | prioritize_issue bid iid pr =>
    cases hb : alist_lookup m.boards bid with
    | none => simp [run_op, prioritize_issue, update_issue, hb]
    | some b =>
      cases hi : alist_lookup b.issues iid with
      | none => simp [run_op, prioritize_issue, update_issue, hb, hi]
      | some i => simp [run_op, prioritize_issue, update_issue, hb, hi]
  | add_label bid iid lab =>
    cases hb : alist_lookup m.boards bid with
    | none => simp [run_op, add_label, hb]
    | some b =>
      cases hi : alist_lookup b.issues iid with
      | none => simp [run_op, add_label, hb, hi]
      | some i => by_cases hp : lab ∈ i.labels <;> simp [run_op, add_label, hb, hi, hp]
  | remove_label bid iid lab =>
    cases hb : alist_lookup m.boards bid with
    | none => simp [run_op, remove_label, hb]
    | some b =>
      cases hi : alist_lookup b.issues iid with
      | none => simp [run_op, remove_label, hb, hi]
      | some i => by_cases hp : lab ∈ i.labels <;> simp [run_op, remove_label, hb, hi, hp]
  | add_comment bid iid aid body =>
    cases hb : alist_lookup m.boards bid with
    | none => simp [run_op, add_comment, hb]
    | some b =>
      cases hi : alist_lookup b.issues iid with
      | none => simp [run_op, add_comment, hb, hi]
      | some i => simp [run_op, add_comment, hb, hi]
  | add_issue_to_sprint bid sid iid =>
    cases hb : alist_lookup m.boards bid with
    | none => simp [run_op, add_issue_to_sprint, hb]
    | some b =>
      cases hs : alist_lookup b.sprints sid with
      | none => simp [run_op, add_issue_to_sprint, hb, hs]
      | some sp =>
        by_cases hp : iid ∉ sp.issues ∧ (alist_lookup b.issues iid).isSome = true <;>
          simp [run_op, add_issue_to_sprint, hb, hs, hp]
  | remove_issue_from_sprint bid sid iid =>
    cases hb : alist_lookup m.boards bid with
    | none => simp [run_op, remove_issue_from_sprint, hb]
    | some b =>
      cases hs : alist_lookup b.sprints sid with
      | none => simp [run_op, remove_issue_from_sprint, hb, hs]
      | some sp =>
        by_cases hp : iid ∈ sp.issues <;> simp [run_op, remove_issue_from_sprint, hb, hs, hp]
  | start_sprint bid sid =>
    cases hb : alist_lookup m.boards bid with
    | none => simp [run_op, start_sprint, hb]
    | some b =>
      cases hs : alist_lookup b.sprints sid with
      | none => simp [run_op, start_sprint, hb, hs]
      | some sp => simp [run_op, start_sprint, hb, hs]
  | close_sprint bid sid =>
    cases hb : alist_lookup m.boards bid with
    | none => simp [run_op, close_sprint, hb]
    | some b =>
      cases hs : alist_lookup b.sprints sid with
      | none => simp [run_op, close_sprint, hb, hs]
      | some sp => simp [run_op, close_sprint, hb, hs]

theorem run_op_ids_spec (m : BoardManager) (o : Op) (now : String) :
    run_op_ids m o now = [] ∨
      (run_op_ids m o now = [m.next_id] ∧ m.next_id + 1 ≤ (run_op m o now).next_id) := by
  cases o with
  | create_board name => exact Or.inr ⟨rfl, by simp [run_op, create_board]⟩
  | create_user name => exact Or.inr ⟨rfl, by simp [run_op, create_user]⟩
  | create_issue bid title descr asg lbs pr =>
    cases hb : alist_lookup m.boards bid with
    | none => exact Or.inl (by simp [run_op_ids, hb])
    | some b =>
      exact Or.inr ⟨by simp [run_op_ids, hb], by simp [run_op, create_issue, hb]⟩
  | create_sprint bid name =>
    cases hb : alist_lookup m.boards bid with
    | none => exact Or.inl (by simp [run_op_ids, hb])
    | some b =>
      exact Or.inr ⟨by simp [run_op_ids, hb], by simp [run_op, create_sprint, hb]⟩
  | add_comment bid iid aid body =>
    cases hb : alist_lookup m.boards bid with
    | none => exact Or.inl (by simp [run_op_ids, get_issue, hb])
    | some b =>
      cases hi : alist_lookup b.issues iid with
      | none => exact Or.inl (by simp [run_op_ids, get_issue, hb, hi])
      | some i =>
        refine Or.inr ⟨by simp [run_op_ids, get_issue, hb, hi], ?_⟩
        simp [run_op, add_comment, hb, hi]
  | add_project bid pn => exact Or.inl rfl
  | update_issue bid iid flds => exact Or.inl rfl
  | delete_issue bid iid => exact Or.inl rfl
  | add_label bid iid lab => exact Or.inl rfl
  | remove_label bid iid lab => exact Or.inl rfl
  | assign_issue bid iid uid => exact Or.inl rfl
  | move_issue bid iid st => exact Or.inl rfl
  | prioritize_issue bid iid pr => exact Or.inl rfl
  | add_issue_to_sprint bid sid iid => exact Or.inl rfl
  | remove_issue_from_sprint bid sid iid => exact Or.inl rfl
  | start_sprint bid sid => exact Or.inl rfl
  | close_sprint bid sid => exact Or.inl rfl
  | import_board p => exact Or.inl rfl

theorem run_ids_lb_sorted (ops : List (Op × String)) (m : BoardManager) :
    (∀ i ∈ run_ids m ops, m.next_id ≤ i) ∧ List.Pairwise (· < ·) (run_ids m ops) := by
  induction ops generalizing m with
  | nil => simp [run_ids]
  | cons p rest ih =>
    obtain ⟨o, t⟩ := p
    have hnext := run_op_next_id_le m o t
    have hrest := ih (run_op m o t)
    rcases run_op_ids_spec m o t with hids | ⟨hids, hbump⟩
    · rw [run_ids, hids, List.nil_append]
      exact ⟨fun i hi => le_trans hnext (hrest.1 i hi), hrest.2⟩
    · rw [run_ids, hids]
      constructor
      · intro i hi
        rcases List.mem_cons.mp hi with h | h
        · omega
        · have := hrest.1 i h
          omega
      · rw [List.singleton_append, List.pairwise_cons]
        refine ⟨fun i hi => ?_, hrest.2⟩
        have := hrest.1 i hi
        omega

/-- C4: over any sequence of manager calls starting from a fresh manager,
the identifiers assigned by `create_board`, `create_user`, `create_issue`,
`create_sprint` and `add_comment` are strictly increasing in assignment
order, and in particular pairwise distinct. -/
theorem assigned_ids_strictly_increasing (ops : List (Op × String)) :
    List.Pairwise (· < ·) (run_ids init_state ops) ∧ (run_ids init_state ops).Nodup :=
  have h := run_ids_lb_sorted ops init_state
  ⟨h.2, List.Pairwise.imp (fun hlt => Nat.ne_of_lt hlt) h.2⟩

/-- Invariant I2 for one board, strengthened with the no-duplicate
discipline of sprint issue lists that `add_issue_to_sprint` maintains:
every sprint references only keys of the board's issues map, each at most
once. -/
def board_ok (b : Board) : Prop :=
  ∀ q ∈ b.sprints, (Prod.snd q).issues.Nodup ∧
    ∀ iid ∈ (Prod.snd q).issues, (alist_lookup b.issues iid).isSome = true

/-- Invariant I2 across the whole store. -/
def manager_ok (m : BoardManager) : Prop :=
  ∀ p ∈ m.boards, board_ok (Prod.snd p)

theorem manager_ok_insert {m' : BoardManager} {l : List (Nat × Board)} {k : Nat} {b : Board}
    (hl : ∀ p ∈ l, board_ok (Prod.snd p)) (hb : board_ok b)
    (h : m'.boards = alist_insert l k b) : manager_ok m' := by
  intro p hp
  rw [h] at hp
  rcases alist_mem_insert hp with hh | hh
  · rw [hh]; exact hb
  · exact hl p hh

theorem board_ok_insert_issue {b : Board} {k : Nat} {v : Issue} (hb : board_ok b) :
    board_ok { b with issues := alist_insert b.issues k v } := by
  intro q hq
  have h := hb q hq
  exact ⟨h.1, fun iid hi => alist_lookup_insert_isSome _ _ _ _ (h.2 iid hi)⟩

theorem board_ok_insert_sprint {b : Board} {k : Nat} {sp : Sprint} (hb : board_ok b)
    (h1 : sp.issues.Nodup)
    (h2 : ∀ iid ∈ sp.issues, (alist_lookup b.issues iid).isSome = true) :
    board_ok { b with sprints := alist_insert b.sprints k sp } := by
  intro q hq
  rcases alist_mem_insert hq with hh | hh
  · rw [hh]; exact ⟨h1, h2⟩
  · exact hb q hh

theorem board_ok_delete (b : Board) (iid : Nat) (hb : board_ok b) :
    board_ok
      { b with
          issues := alist_pop b.issues iid,
          sprints := b.sprints.map (fun q =>
            (q.1, if iid ∈ q.2.issues then { q.2 with issues := q.2.issues.erase iid }
                  else q.2)) } := by
  intro q hq
  simp only [List.mem_map] at hq
  obtain ⟨r, hr, hq⟩ := hq
  have hrok := hb r hr
  subst hq
  by_cases hmem : iid ∈ r.2.issues
  · simp only [hmem, if_pos]
    refine ⟨(List.erase_sublist _ _).nodup hrok.1, ?_⟩
    intro j hj
    have hne : j ≠ iid := ((hrok.1.mem_erase_iff).mp hj).1
    have hj' : j ∈ r.2.issues := List.mem_of_mem_erase hj
    rw [alist_lookup_pop_ne _ _ _ hne]
    exact hrok.2 j hj'
  · simp only [hmem, if_neg]
    refine ⟨hrok.1, ?_⟩
    intro j hj
    have hne : j ≠ iid := fun h => hmem (h ▸ hj)
    rw [alist_lookup_pop_ne _ _ _ hne]
    exact hrok.2 j hj

theorem manager_ok_run_op (m : BoardManager) (o : Op) (now : String)
    (himp : o.is_import = false) (hm : manager_ok m) : manager_ok (run_op m o now) := by
  cases o with
  | import_board p => simp [Op.is_import] at himp
  | create_board name =>
    simp only [run_op, create_board]
    exact manager_ok_insert hm (fun q hq => absurd hq (List.not_mem_nil q)) rfl
  | create_user name =>
    simp only [run_op, create_user]
    exact fun p hp => hm p hp
  | add_project bid pn =>
    cases hb : alist_lookup m.boards bid with
    | none => simp only [run_op, add_project, hb]; exact hm
    | some b =>
      have hbok : board_ok b := hm _ (alist_lookup_mem hb)
      by_cases hp : pn ∈ b.projects
      · simp only [run_op, add_project, hb, hp, if_true]; exact hm
      · simp only [run_op, add_project, hb, hp, if_false]
        refine manager_ok_insert hm ?_ rfl
        exact fun q hq => hbok q hq
  | create_issue bid title descr asg lbs pr =>
    cases hb : alist_lookup m.boards bid with
    | none => simp only [run_op, create_issue, hb]; exact hm
    | some b =>
      have hbok : board_ok b := hm _ (alist_lookup_mem hb)
      simp only [run_op, create_issue, hb]
      exact manager_ok_insert hm (board_ok_insert_issue hbok) rfl
  | update_issue bid iid flds =>
    cases hb : alist_lookup m.boards bid with
    | none => simp only [run_op, update_issue, hb]; exact hm
    | some b =>
      have hbok : board_ok b := hm _ (alist_lookup_mem hb)
      cases hi : alist_lookup b.issues iid with
      | none => simp only [run_op, update_issue, hb, hi]; exact hm
      | some i =>
        simp only [run_op, update_issue, hb, hi]
        exact manager_ok_insert hm (board_ok_insert_issue hbok) rfl
  | assign_issue bid iid uid =>
    cases hb : alist_lookup m.boards bid with
    | none => simp only [run_op, assign_issue, update_issue, hb]; exact hm
    | some b =>
      have hbok : board_ok b := hm _ (alist_lookup_mem hb)
      cases hi : alist_lookup b.issues iid with
      | none => simp only [run_op, assign_issue, update_issue, hb, hi]; exact hm
      | some i =>
        simp only [run_op, assign_issue, update_issue, hb, hi]
        exact manager_ok_insert hm (board_ok_insert_issue hbok) rfl
  | move_issue bid iid st =>
    cases hb : alist_lookup m.boards bid with
    | none => simp only [run_op, move_issue, update_issue, hb]; exact hm
    | some b =>
      have hbok : board_ok b := hm _ (alist_lookup_mem hb)
      cases hi : alist_lookup b.issues iid with
      | none => simp only [run_op, move_issue, update_issue, hb, hi]; exact hm
      | some i =>
        simp only [run_op, move_issue, update_issue, hb, hi]
        exact manager_ok_insert hm (board_ok_insert_issue hbok) rfl
  | prioritize_issue bid iid pr =>
    cases hb : alist_lookup m.boards bid with
    | none => simp only [run_op, prioritize_issue, update_issue, hb]; exact hm
    | some b =>
      have hbok : board_ok b := hm _ (alist_lookup_mem hb)
      cases hi : alist_lookup b.issues iid with
      | none => simp only [run_op, prioritize_issue, update_issue, hb, hi]; exact hm
      | some i =>
        simp only [run_op, prioritize_issue, update_issue, hb, hi]
        exact manager_ok_insert hm (board_ok_insert_issue hbok) rfl
  | delete_issue bid iid =>
    cases hb : alist_lookup m.boards bid with
    | none => simp only [run_op, delete_issue, hb]; exact hm
    | some b =>
      have hbok : board_ok b := hm _ (alist_lookup_mem hb)
      simp only [run_op, delete_issue, hb]
      exact manager_ok_insert hm (board_ok_delete b iid hbok) rfl
  | add_label bid iid lab =>
    cases hb : alist_lookup m.boards bid with
    | none => simp only [run_op, add_label, hb]; exact hm
    | some b =>
      have hbok : board_ok b := hm _ (alist_lookup_mem hb)
      cases hi : alist_lookup b.issues iid with
      | none => simp only [run_op, add_label, hb, hi]; exact hm
      | some i =>
        by_cases hp : lab ∈ i.labels
        · simp only [run_op, add_label, hb, hi, hp, if_true]; exact hm
        · simp only [run_op, add_label, hb, hi, hp, if_false]
          exact manager_ok_insert hm (board_ok_insert_issue hbok) rfl
  | remove_label bid iid lab =>
    cases hb : alist_lookup m.boards bid with
    | none => simp only [run_op, remove_label, hb]; exact hm
    | some b =>
      have hbok : board_ok b := hm _ (alist_lookup_mem hb)
      cases hi : alist_lookup b.issues iid with
      | none => simp only [run_op, remove_label, hb, hi]; exact hm
      | some i =>
        by_cases hp : lab ∈ i.labels
        · simp only [run_op, remove_label, hb, hi, hp, if_true]
          exact manager_ok_insert hm (board_ok_insert_issue hbok) rfl
        · simp only [run_op, remove_label, hb, hi, hp, if_false]; exact hm
  | add_comment bid iid aid body =>
    cases hb : alist_lookup m.boards bid with
    | none => simp only [run_op, add_comment, hb]; exact hm
    | some b =>
      have hbok : board_ok b := hm _ (alist_lookup_mem hb)
      cases hi : alist_lookup b.issues iid with
      | none => simp only [run_op, add_comment, hb, hi]; exact hm
      | some i =>
        simp only [run_op, add_comment, hb, hi]
        exact manager_ok_insert hm (board_ok_insert_issue hbok) rfl
  | create_sprint bid name =>
    cases hb : alist_lookup m.boards bid with
    | none => simp only [run_op, create_sprint, hb]; exact hm
    | some b =>
      have hbok : board_ok b := hm _ (alist_lookup_mem hb)
      simp only [run_op, create_sprint, hb]
      refine manager_ok_insert hm (board_ok_insert_sprint hbok List.nodup_nil ?_) rfl
      intro iid hi
      exact absurd hi (List.not_mem_nil iid)
  | add_issue_to_sprint bid sid iid =>
    cases hb : alist_lookup m.boards bid with
    | none => simp only [run_op, add_issue_to_sprint, hb]; exact hm
    | some b =>
      have hbok : board_ok b := hm _ (alist_lookup_mem hb)
      cases hs : alist_lookup b.sprints sid with
      | none => simp only [run_op, add_issue_to_sprint, hb, hs]; exact hm
      | some sp =>
        have hspok := hbok _ (alist_lookup_mem hs)
        by_cases hp : iid ∉ sp.issues ∧ (alist_lookup b.issues iid).isSome = true
        · simp only [run_op, add_issue_to_sprint, hb, hs, hp, if_true]
          have hnd : (sp.issues ++ [iid]).Nodup := by
            rw [List.nodup_append]
            refine ⟨hspok.1, List.nodup_singleton _, ?_⟩
            intro a ha hcontra
            rw [List.mem_singleton] at hcontra
            exact hp.1 (hcontra ▸ ha)
          refine manager_ok_insert hm (board_ok_insert_sprint hbok hnd ?_) rfl
          intro j hj
          rcases List.mem_append.mp hj with hj | hj
          · exact hspok.2 j hj
          · rw [List.mem_singleton] at hj
            exact hj ▸ hp.2
        · simp only [run_op, add_issue_to_sprint, hb, hs, hp, if_false]; exact hm
  | remove_issue_from_sprint bid sid iid =>
    cases hb : alist_lookup m.boards bid with
    | none => simp only [run_op, remove_issue_from_sprint, hb]; exact hm
    | some b =>
      have hbok : board_ok b := hm _ (alist_lookup_mem hb)
      cases hs : alist_lookup b.sprints sid with
      | none => simp only [run_op, remove_issue_from_sprint, hb, hs]; exact hm
      | some sp =>
        have hspok := hbok _ (alist_lookup_mem hs)
        by_cases hp : iid ∈ sp.issues
        · simp only [run_op, remove_issue_from_sprint, hb, hs, hp, if_true]
          refine manager_ok_insert hm
            (board_ok_insert_sprint hbok ((List.erase_sublist _ _).nodup hspok.1) ?_) rfl
          intro j hj
          exact hspok.2 j (List.mem_of_mem_erase hj)
        · simp only [run_op, remove_issue_from_sprint, hb, hs, hp, if_false]; exact hm
  | start_sprint bid sid =>
    cases hb : alist_lookup m.boards bid with
    | none => simp only [run_op, start_sprint, hb]; exact hm
    | some b =>
      have hbok : board_ok b := hm _ (alist_lookup_mem hb)
      cases hs : alist_lookup b.sprints sid with
      | none => simp only [run_op, start_sprint, hb, hs]; exact hm
      | some sp =>
        have hspok := hbok _ (alist_lookup_mem hs)
        simp only [run_op, start_sprint, hb, hs]
        refine manager_ok_insert hm (board_ok_insert_sprint hbok ?_ ?_) rfl
        · exact hspok.1
        · exact hspok.2
  | close_sprint bid sid =>
    cases hb : alist_lookup m.boards bid with
    | none => simp only [run_op, close_sprint, hb]; exact hm
    | some b =>
      have hbok : board_ok b := hm _ (alist_lookup_mem hb)
      cases hs : alist_lookup b.sprints sid with
      | none => simp only [run_op, close_sprint, hb, hs]; exact hm
      | some sp =>
        have hspok := hbok _ (alist_lookup_mem hs)
        simp only [run_op, close_sprint, hb, hs]
        refine manager_ok_insert hm (board_ok_insert_sprint hbok ?_ ?_) rfl
        · exact hspok.1
        · exact hspok.2

theorem manager_ok_run_ops (ops : List (Op × String)) (m : BoardManager)
    (h : ∀ p ∈ ops, (Prod.fst p).is_import = false) (hm : manager_ok m) :
    manager_ok (run_ops m ops) := by
  induction ops generalizing m with
  | nil => exact hm
  | cons p rest ih =>
    exact ih (run_op m p.1 p.2)
      (fun q hq => h q (List.mem_cons_of_mem p hq))
      (manager_ok_run_op m p.1 p.2 (h p (List.mem_cons_self p rest)) hm)

theorem manager_ok_init : manager_ok init_state :=
  fun p hp => absurd hp (List.not_mem_nil p)

/-- C3, amended: the state quantification ranges over the manager's
operations other than `import_board` (which performs no referential
validation, see the counterexample).  Over any such sequence from a fresh
manager, every sprint's issues list references only identifiers present in
its owning board's issues map; after a successful `delete_issue (b, i)` no
sprint of board `b` contains `i`; and `add_issue_to_sprint` appends the
issue only when it is a key of the board's issues map and not already
listed, silently no-opping (without raising) otherwise. -/
theorem sprint_refs_invariant (ops : List (Op × String))
    (himp : ∀ p ∈ ops, (Prod.fst p).is_import = false) :
    (∀ p ∈ (run_ops init_state ops).boards, ∀ q ∈ (Prod.snd p).sprints,
        ∀ iid ∈ (Prod.snd q).issues,
          (alist_lookup (Prod.snd p).issues iid).isSome = true) ∧
    (∀ bid iid m' b', delete_issue (run_ops init_state ops) bid iid = Except.ok m' →
        alist_lookup m'.boards bid = some b' →
        ∀ q ∈ b'.sprints, iid ∉ (Prod.snd q).issues) ∧
    (∀ (m : BoardManager) (bid sid iid : Nat) (b : Board) (sp : Sprint),
        alist_lookup m.boards bid = some b → alist_lookup b.sprints sid = some sp →
        ((iid ∈ sp.issues ∨ alist_lookup b.issues iid = none →
            add_issue_to_sprint m bid sid iid = Except.ok m) ∧
         (iid ∉ sp.issues → (alist_lookup b.issues iid).isSome = true →
            ∃ m', add_issue_to_sprint m bid sid iid = Except.ok m' ∧
              ∃ b', alist_lookup m'.boards bid = some b' ∧
                alist_lookup b'.sprints sid =
                  some { sp with issues := sp.issues ++ [iid] }))) := by
  have mok := manager_ok_run_ops ops init_state himp manager_ok_init
  refine ⟨fun p hp q hq iid hi => (mok p hp q hq).2 iid hi, ?_, ?_⟩
  · intro bid iid m' b' hdel hlook
    cases hb : alist_lookup (run_ops init_state ops).boards bid with
    | none => rw [delete_issue, hb] at hdel; exact absurd hdel (by simp)
    | some b =>
      have hbok := mok _ (alist_lookup_mem hb)
      rw [delete_issue, hb] at hdel
      simp only [Except.ok.injEq] at hdel
      subst hdel
      simp only [alist_lookup_insert_self] at hlook
      simp only [Option.some.injEq] at hlook
      subst hlook
      intro q hq
      simp only [List.mem_map] at hq
      obtain ⟨r, hr, hq⟩ := hq
      subst hq
      by_cases hmem : iid ∈ r.2.issues
      · simp only [hmem, if_pos]
        intro hcon
        exact (((hbok r hr).1.mem_erase_iff).mp hcon).1 rfl
      · simp only [hmem, if_neg]
        exact hmem
  · intro m bid sid iid b sp hb hs
    constructor
    · intro hcase
      simp only [add_issue_to_sprint, hb, hs]
      rw [if_neg]
      rcases hcase with hmem | hnone
      · exact fun hc => hc.1 hmem
      · intro hc
        rw [hnone] at hc
        exact absurd hc.2 (by simp)
    · intro h1 h2
      simp only [add_issue_to_sprint, hb, hs]
      rw [if_pos ⟨h1, h2⟩]
      exact ⟨_, rfl, _, alist_lookup_insert_self _ _ _, alist_lookup_insert_self _ _ _⟩

/-- A serialized board whose only sprint references issue id 42 although the
payload carries no issue with that id. -/
def c3_bad_payload : BoardPayload :=
  { id := some 7, name := "imported", projects := none, issues := none,
    sprints := some [(5, { id := 5, name := "s1", start_at := none, end_at := none,
                           issues := some [42], active := some true })] }

/-- C3 counterexample: with `import_board` among the manager's operations, a
reachable state contains a sprint whose issues list references an identifier
absent from its owning board's issues map, so the claim as stated (over all
manager operations) is false. -/
theorem sprint_refs_invariant_import_cex :
    ¬ (∀ p ∈ (run_ops init_state [(Op.import_board c3_bad_payload, "T1")]).boards,
        ∀ q ∈ (Prod.snd p).sprints, ∀ iid ∈ (Prod.snd q).issues,
          (alist_lookup (Prod.snd p).issues iid).isSome = true) := by
  decide

/-- The concrete call sequence used to witness `sprint_refs_invariant`. -/
def c3_ops : List (Op × String) :=
  [(Op.create_board "b", "T1"),
   (Op.create_issue 1 "i" "" none none 100, "T2"),
   (Op.create_sprint 1 "s", "T3"),
   (Op.add_issue_to_sprint 1 3 2, "T4")]

/-- The board reached by `c3_ops`. -/
def c3_board_w : Board :=
  { id := 1, name := "b", projects := [],
    issues := [(2, { id := 2, title := "i", description := "", status := "todo",
                     assignee_id := none, labels := [], priority := 100, comments := [],
                     created_at := "T2", updated_at := "T2" })],
    sprints := [(3, { id := 3, name := "s", start_at := none, end_at := none,
                      issues := [2], active := false })] }

/-- The sprint entry of `c3_board_w`. -/
def c3_sprint_w : Nat × Sprint :=
  (3, { id := 3, name := "s", start_at := none, end_at := none,
        issues := [2], active := false })

/-- Witness for `sprint_refs_invariant` at the concrete run `c3_ops`. -/
theorem sprint_refs_invariant_witness :
    (alist_lookup (Prod.snd (1, c3_board_w)).issues 2).isSome = true :=
  (sprint_refs_invariant c3_ops (by decide)).1 (1, c3_board_w) (by decide)
    c3_sprint_w (by decide) 2 (by decide)

/-- A serialized board whose sprint 5 lists issue id 42 while the issues
object is empty. -/
def c10_payload : BoardPayload :=
  { id := some 7, name := "imported2", projects := some [], issues := some [],
    sprints := some [(5, { id := 5, name := "sp", start_at := none, end_at := none,
                           issues := some [42], active := some true })] }

/-- C10: `import_board` performs no referential validation: importing
`c10_payload` registers a board (under its own id 7) in which sprint 5
references identifier 42 even though 42 is not present in the board's
issues map, so invariant I2 does not hold for this imported board. -/
theorem import_board_no_referential_validation :
    alist_lookup ((import_board init_state c10_payload "T1").2).boards 7 =
        some (import_board init_state c10_payload "T1").1 ∧
    (∃ q ∈ (import_board init_state c10_payload "T1").1.sprints,
        42 ∈ (Prod.snd q).issues) ∧
    alist_lookup (import_board init_state c10_payload "T1").1.issues 42 = none := by
  decide

/-- C2: every operation that dereferences a `board_id`, `issue_id` or
`sprint_id` absent from the store fails with `Err.notFound` naming that
entity kind and that identifier (the first conjunct covers every
board-dereferencing operation, the second every issue-dereferencing one,
the third every sprint-dereferencing one); and `Err` has no constructor
other than `notFound`, so no operation of the core fails with any other
error kind.  In particular `get_issue` raises for a missing issue inside a
valid board and for a missing board. -/
theorem notfound_error_model :
    (∀ (m : BoardManager) (bid iid sid aid : Nat) (os : Option String) (s1 s2 : String)
        (oa : Option Nat) (ol : Option (List String)) (pr : Int) (flds : List FieldUpdate)
        (t : String) (sbp : Bool),
        alist_lookup m.boards bid = none →
          add_project m bid s1 = Except.error (Err.notFound EntityKind.board bid) ∧
          create_issue m bid s1 s2 oa ol pr t =
            Except.error (Err.notFound EntityKind.board bid) ∧
          get_issue m bid iid = Except.error (Err.notFound EntityKind.board bid) ∧
          update_issue m bid iid flds t = Except.error (Err.notFound EntityKind.board bid) ∧
          delete_issue m bid iid = Except.error (Err.notFound EntityKind.board bid) ∧
          list_issues m bid os oa ol sbp = Except.error (Err.notFound EntityKind.board bid) ∧
          add_label m bid iid s1 t = Except.error (Err.notFound EntityKind.board bid) ∧
          remove_label m bid iid s1 t = Except.error (Err.notFound EntityKind.board bid) ∧
          add_comment m bid iid aid s1 t = Except.error (Err.notFound EntityKind.board bid) ∧
          assign_issue m bid iid oa t = Except.error (Err.notFound EntityKind.board bid) ∧
          move_issue m bid iid s1 t = Except.error (Err.notFound EntityKind.board bid) ∧
          prioritize_issue m bid iid pr t = Except.error (Err.notFound EntityKind.board bid) ∧
          create_sprint m bid s1 = Except.error (Err.notFound EntityKind.board bid) ∧
          add_issue_to_sprint m bid sid iid =
            Except.error (Err.notFound EntityKind.board bid) ∧
          remove_issue_from_sprint m bid sid iid =
            Except.error (Err.notFound EntityKind.board bid) ∧
          start_sprint m bid sid t = Except.error (Err.notFound EntityKind.board bid) ∧
          close_sprint m bid sid t = Except.error (Err.notFound EntityKind.board bid) ∧
          search_issues m bid s1 = Except.error (Err.notFound EntityKind.board bid) ∧
          export_board m bid = Except.error (Err.notFound EntityKind.board bid)) ∧
    (∀ (m : BoardManager) (bid iid aid : Nat) (b : Board) (s1 : String) (oa : Option Nat)
        (pr : Int) (flds : List FieldUpdate) (t : String),
        alist_lookup m.boards bid = some b → alist_lookup b.issues iid = none →
          get_issue m bid iid = Except.error (Err.notFound EntityKind.issue iid) ∧
          update_issue m bid iid flds t = Except.error (Err.notFound EntityKind.issue iid) ∧
          add_label m bid iid s1 t = Except.error (Err.notFound EntityKind.issue iid) ∧
          remove_label m bid iid s1 t = Except.error (Err.notFound EntityKind.issue iid) ∧
          add_comment m bid iid aid s1 t = Except.error (Err.notFound EntityKind.issue iid) ∧
          assign_issue m bid iid oa t = Except.error (Err.notFound EntityKind.issue iid) ∧
          move_issue m bid iid s1 t = Except.error (Err.notFound EntityKind.issue iid) ∧
          prioritize_issue m bid iid pr t =
            Except.error (Err.notFound EntityKind.issue iid)) ∧
    (∀ (m : BoardManager) (bid sid iid : Nat) (b : Board) (t : String),
        alist_lookup m.boards bid = some b → alist_lookup b.sprints sid = none →
          add_issue_to_sprint m bid sid iid =
            Except.error (Err.notFound EntityKind.sprint sid) ∧
          remove_issue_from_sprint m bid sid iid =
            Except.error (Err.notFound EntityKind.sprint sid) ∧
          start_sprint m bid sid t = Except.error (Err.notFound EntityKind.sprint sid) ∧
          close_sprint m bid sid t = Except.error (Err.notFound EntityKind.sprint sid)) ∧
    (∀ e : Err, ∃ kind i, e = Err.notFound kind i) := by
  refine ⟨?_, ?_, ?_, ?_⟩
  · intro m bid iid sid aid os s1 s2 oa ol pr flds t sbp hb
    exact ⟨by simp [add_project, hb], by simp [create_issue, hb], by simp [get_issue, hb],
      by simp [update_issue, hb], by simp [delete_issue, hb], by simp [list_issues, hb],
      by simp [add_label, hb], by simp [remove_label, hb], by simp [add_comment, hb],
      by simp [assign_issue, update_issue, hb], by simp [move_issue, update_issue, hb],
      by simp [prioritize_issue, update_issue, hb], by simp [create_sprint, hb],
      by simp [add_issue_to_sprint, hb], by simp [remove_issue_from_sprint, hb],
      by simp [start_sprint, hb], by simp [close_sprint, hb], by simp [search_issues, hb],
      by simp [export_board, hb]⟩
  · intro m bid iid aid b s1 oa pr flds t hb hi
    exact ⟨by simp [get_issue, hb, hi], by simp [update_issue, hb, hi],
      by simp [add_label, hb, hi], by simp [remove_label, hb, hi],
      by simp [add_comment, hb, hi], by simp [assign_issue, update_issue, hb, hi],
      by simp [move_issue, update_issue, hb, hi],
      by simp [prioritize_issue, update_issue, hb, hi]⟩
  · intro m bid sid iid b t hb hs
    exact ⟨by simp [add_issue_to_sprint, hb, hs], by simp [remove_issue_from_sprint, hb, hs],
      by simp [start_sprint, hb, hs], by simp [close_sprint, hb, hs]⟩
  · intro e
    cases e with
    | notFound kind i => exact ⟨kind, i, rfl⟩

/-- The two-call run used to witness the error model. -/
def c2_ops : List (Op × String) :=
  [(Op.create_board "b", "T1"), (Op.create_issue 1 "i" "" none none 100, "T2")]

/-- The board reached by `c2_ops`. -/
def c2_board_w : Board :=
  { id := 1, name := "b", projects := [],
    issues := [(2, { id := 2, title := "i", description := "", status := "todo",
                     assignee_id := none, labels := [], priority := 100, comments := [],
                     created_at := "T2", updated_at := "T2" })],
    sprints := [] }

/-- Witness for `notfound_error_model`: `get_issue` on a missing issue in a
valid board, and on a missing board. -/
theorem notfound_error_model_witness :
    get_issue (run_ops init_state c2_ops) 1 999 =
        Except.error (Err.notFound EntityKind.issue 999) ∧
    get_issue (run_ops init_state c2_ops) 888 2 =
        Except.error (Err.notFound EntityKind.board 888) := by
  have h := notfound_error_model
  exact ⟨(h.2.1 (run_ops init_state c2_ops) 1 999 0 c2_board_w "x" none 0 [] "t"
      (by decide) (by decide)).1,
    (h.1 (run_ops init_state c2_ops) 888 2 0 0 none "x" "y" none none 0 [] "t" false
      (by decide)).2.2.1⟩

/-- C6: `update_issue` silently drops an unrecognized key anywhere in the
field list without erroring (first conjunct), always refreshes `updated_at`
to the call's time (second), applies exactly the recognized fields in order
to the stored issue (third), and fails with `NotFound` when the board or
the issue is absent (fourth and fifth). -/
theorem update_issue_fields_behavior :
    (∀ (m : BoardManager) (bid iid : Nat) (f1 f2 : List FieldUpdate) (k t : String),
        update_issue m bid iid (f1 ++ FieldUpdate.unknown k :: f2) t =
          update_issue m bid iid (f1 ++ f2) t) ∧
    (∀ (m : BoardManager) (bid iid : Nat) (flds : List FieldUpdate) (t : String)
        (i' : Issue) (m' : BoardManager),
        update_issue m bid iid flds t = Except.ok (i', m') → i'.updated_at = t) ∧
    (∀ (m : BoardManager) (bid iid : Nat) (flds : List FieldUpdate) (t : String)
        (b : Board) (i : Issue),
        alist_lookup m.boards bid = some b → alist_lookup b.issues iid = some i →
        update_issue m bid iid flds t =
          Except.ok
            ({ flds.foldl apply_field i with updated_at := t },
             { m with
                 boards := alist_insert m.boards bid
                   { b with
                       issues := alist_insert b.issues iid
                         { flds.foldl apply_field i with updated_at := t } } })) ∧
    (∀ (m : BoardManager) (bid iid : Nat) (flds : List FieldUpdate) (t : String),
        alist_lookup m.boards bid = none →
          update_issue m bid iid flds t =
            Except.error (Err.notFound EntityKind.board bid)) ∧
    (∀ (m : BoardManager) (bid iid : Nat) (flds : List FieldUpdate) (t : String) (b : Board),
        alist_lookup m.boards bid = some b → alist_lookup b.issues iid = none →
          update_issue m bid iid flds t =
            Except.error (Err.notFound EntityKind.issue iid)) := by
  refine ⟨?_, ?_, ?_, ?_, ?_⟩
  · intro m bid iid f1 f2 k t
    cases hb : alist_lookup m.boards bid with
    | none => simp [update_issue, hb]
    | some b =>
      cases hi : alist_lookup b.issues iid with
      | none => simp [update_issue, hb, hi]
      | some i => simp [update_issue, hb, hi, List.foldl_append, apply_field]
  · intro m bid iid flds t i' m' heq
    cases hb : alist_lookup m.boards bid with
    | none => simp only [update_issue, hb] at heq; exact absurd heq (by simp)
    | some b =>
      cases hi : alist_lookup b.issues iid with
      | none => simp only [update_issue, hb, hi] at heq; exact absurd heq (by simp)
      | some i =>
        simp only [update_issue, hb, hi, Except.ok.injEq, Prod.mk.injEq] at heq
        rw [← heq.1]
  · intro m bid iid flds t b i hb hi
    simp [update_issue, hb, hi]
  · intro m bid iid flds t hb
    simp [update_issue, hb]
  · intro m bid iid flds t b hb hi
    simp [update_issue, hb, hi]

/-- The issue stored in `c2_board_w` (created by the second call of
`c2_ops`). -/
def c6_issue_w : Issue :=
  { id := 2, title := "i", description := "", status := "todo", assignee_id := none,
    labels := [], priority := 100, comments := [], created_at := "T2", updated_at := "T2" }

/-- Witness for `update_issue_fields_behavior` on a concrete run: a
successful update, a missing board, and a missing issue. -/
theorem update_issue_fields_behavior_witness :
    update_issue (run_ops init_state c2_ops) 1 2 [FieldUpdate.set_status "done"] "T3" =
      Except.ok
        ({ [FieldUpdate.set_status "done"].foldl apply_field c6_issue_w with
             updated_at := "T3" },
         { run_ops init_state c2_ops with
             boards := alist_insert (run_ops init_state c2_ops).boards 1
               { c2_board_w with
                   issues := alist_insert c2_board_w.issues 2
                     { [FieldUpdate.set_status "done"].foldl apply_field c6_issue_w with
                         updated_at := "T3" } } }) ∧
    update_issue (run_ops init_state c2_ops) 888 2 [] "T3" =
      Except.error (Err.notFound EntityKind.board 888) ∧
    update_issue (run_ops init_state c2_ops) 1 999 [] "T3" =
      Except.error (Err.notFound EntityKind.issue 999) := by
  have h := update_issue_fields_behavior
  exact ⟨h.2.2.1 (run_ops init_state c2_ops) 1 2 [FieldUpdate.set_status "done"] "T3"
      c2_board_w c6_issue_w (by decide) (by decide),
    h.2.2.2.1 (run_ops init_state c2_ops) 888 2 [] "T3" (by decide),
    h.2.2.2.2 (run_ops init_state c2_ops) 1 999 [] "T3" c2_board_w (by decide) (by decide)⟩

/-- C9: `update_issue` recognizes every dataclass attribute of `Issue`,
including `id`: updating with `id := v` succeeds, the stored issue's id
field becomes `v`, yet the board still keys the issue under the old
identifier; when `v` differs from the key, the id-equals-key relationship
(and the spec's assigned-once-never-mutated statement) is broken through
the public interface. -/
theorem update_issue_id_desync :
    ∀ (m : BoardManager) (bid iid v : Nat) (t : String) (b : Board) (i : Issue),
      alist_lookup m.boards bid = some b → alist_lookup b.issues iid = some i →
      ∃ i' m', update_issue m bid iid [FieldUpdate.set_id v] t = Except.ok (i', m') ∧
        i'.id = v ∧
        (∃ b', alist_lookup m'.boards bid = some b' ∧
          alist_lookup b'.issues iid = some i') ∧
        (v ≠ iid → ∃ b', alist_lookup m'.boards bid = some b' ∧
          ∃ q ∈ b'.issues, (Prod.snd q).id ≠ Prod.fst q) := by
  intro m bid iid v t b i hb hi
  have heq : update_issue m bid iid [FieldUpdate.set_id v] t =
      Except.ok
        ({ [FieldUpdate.set_id v].foldl apply_field i with updated_at := t },
         { m with
             boards := alist_insert m.boards bid
               { b with
                   issues := alist_insert b.issues iid
                     { [FieldUpdate.set_id v].foldl apply_field i with
                         updated_at := t } } }) := by
    simp [update_issue, hb, hi]
  refine ⟨_, _, heq, rfl,
    ⟨_, alist_lookup_insert_self _ _ _, alist_lookup_insert_self _ _ _⟩, ?_⟩
  intro hne
  refine ⟨_, alist_lookup_insert_self _ _ _,
    (iid, { [FieldUpdate.set_id v].foldl apply_field i with updated_at := t }), ?_, ?_⟩
  · exact alist_lookup_mem (alist_lookup_insert_self _ _ _)
  · exact hne

/-- Witness for `update_issue_id_desync` on a concrete run. -/
theorem update_issue_id_desync_witness :
    ∃ i' m',
      update_issue (run_ops init_state c2_ops) 1 2 [FieldUpdate.set_id 99] "T3" =
          Except.ok (i', m') ∧
        i'.id = 99 ∧
        (∃ b', alist_lookup m'.boards 1 = some b' ∧
          alist_lookup b'.issues 2 = some i') ∧
        (99 ≠ 2 → ∃ b', alist_lookup m'.boards 1 = some b' ∧
          ∃ q ∈ b'.issues, (Prod.snd q).id ≠ Prod.fst q) :=
  update_issue_id_desync (run_ops init_state c2_ops) 1 2 99 "T3" c2_board_w c6_issue_w
    (by decide) (by decide)

theorem mem_priority_insert {x a : Issue} {l : List Issue} :
    a ∈ priority_insert x l ↔ a = x ∨ a ∈ l := by
  induction l with
  | nil => simp [priority_insert]
  | cons y t ih =>
    by_cases h : y.priority < x.priority <;> simp [priority_insert, h, ih] <;> tauto

theorem priority_insert_sorted (x : Issue) (l : List Issue)
    (h : List.Pairwise (fun a b => a.priority ≤ b.priority) l) :
    List.Pairwise (fun a b => a.priority ≤ b.priority) (priority_insert x l) := by
  induction l with
  | nil => simp [priority_insert]
  | cons y t ih =>
    rw [List.pairwise_cons] at h
    by_cases hc : y.priority < x.priority
    · simp only [priority_insert, if_pos hc]
      rw [List.pairwise_cons]
      constructor
      · intro a ha
        rcases mem_priority_insert.mp ha with rfl | ha
        · exact le_of_lt hc
        · exact h.1 a ha
      · exact ih h.2
    · simp only [priority_insert, if_neg hc]
      rw [List.pairwise_cons]
      constructor
      · intro a ha
        rcases List.mem_cons.mp ha with rfl | ha
        · exact le_of_not_lt hc
        · exact le_trans (le_of_not_lt hc) (h.1 a ha)
      · exact List.pairwise_cons.mpr h

theorem priority_insert_perm (x : Issue) (l : List Issue) :
    (priority_insert x l).Perm (x :: l) := by
  induction l with
  | nil => simp [priority_insert]
  | cons y t ih =>
    by_cases hc : y.priority < x.priority
    · simp only [priority_insert, if_pos hc]
      exact (ih.cons y).trans (List.Perm.swap x y t)
    · simp only [priority_insert, if_neg hc]
      exact List.Perm.refl _

theorem priority_sort_sorted (l : List Issue) :
    List.Pairwise (fun a b => a.priority ≤ b.priority) (priority_sort l) := by
  induction l with
  | nil => simp [priority_sort]
  | cons x t ih => exact priority_insert_sorted x _ ih

theorem priority_sort_perm (l : List Issue) : (priority_sort l).Perm l := by
  induction l with
  | nil => exact List.Perm.refl _
  | cons x t ih => exact (priority_insert_perm x _).trans (ih.cons x)

theorem priority_insert_filter (x : Issue) (l : List Issue) (p : Int) :
    (priority_insert x l).filter (fun i => i.priority == p) =
      if x.priority == p then x :: l.filter (fun i => i.priority == p)
      else l.filter (fun i => i.priority == p) := by
  induction l with
  | nil =>
    by_cases hx : (x.priority == p) = true <;> simp [priority_insert, hx]
  | cons y t ih =>
    by_cases hc : y.priority < x.priority
    · simp only [priority_insert, if_pos hc, List.filter_cons]
      by_cases hy : (y.priority == p) = true
      · have hyp : y.priority = p := by simpa using hy
        have hx : (x.priority == p) = false := by
          simp only [beq_eq_false_iff_ne, ne_eq]
          intro hxe
          rw [hxe, ← hyp] at hc
          exact lt_irrefl _ hc
        simp [hy, hx, ih]
      · rw [Bool.not_eq_true] at hy
        simp [hy, ih]
    · simp only [priority_insert, if_neg hc, List.filter_cons]

theorem priority_sort_stable (l : List Issue) (p : Int) :
    (priority_sort l).filter (fun i => i.priority == p) =
      l.filter (fun i => i.priority == p) := by
  induction l with
  | nil => rfl
  | cons x t ih =>
    show (priority_insert x (priority_sort t)).filter _ = _
    rw [priority_insert_filter, List.filter_cons]
    by_cases hx : (x.priority == p) = true <;> simp [hx, ih]

/-- The effective status guard of `list_issues` (`if status:` is skipped on
`None` and on the empty string). -/
def status_pred (st : Option String) (i : Issue) : Bool :=
  match st with
  | none => true
  | some s => if s = "" then true else i.status == s

/-- The effective assignee guard of `list_issues` (`is not None`). -/
def assignee_pred (oa : Option Nat) (i : Issue) : Bool :=
  match oa with
  | none => true
  | some a => i.assignee_id == some a

/-- The effective labels guard of `list_issues` (`if labels:` is skipped on
`None` and on the empty list). -/
def labels_pred (ol : Option (List String)) (i : Issue) : Bool :=
  match ol with
  | none => true
  | some ls => if ls = [] then true else ls.all (fun l => decide (l ∈ i.labels))

/-- The spec's conjunctive filter: the issue matches every provided filter
(status equality, assignee equality, labels subset match). -/
def matches_all_filters (st : Option String) (oa : Option Nat)
    (ol : Option (List String)) (i : Issue) : Bool :=
  (match st with | none => true | some s => i.status == s) &&
  (match oa with | none => true | some a => i.assignee_id == some a) &&
  (match ol with | none => true | some ls => ls.all (fun l => decide (l ∈ i.labels)))

theorem filter_swap {α : Type} (f g : α → Bool) (l : List α) :
    (l.filter f).filter g = l.filter (fun a => f a && g a) := by
  rw [List.filter_filter]
  exact List.filter_congr (fun a _ => by cases f a <;> cases g a <;> rfl)

theorem filter_true_eq {α : Type} (l : List α) : l.filter (fun _ => true) = l := by
  induction l with
  | nil => rfl
  | cons x t ih => simp [List.filter_cons, ih]

theorem list_issues_eq_filter (m : BoardManager) (bid : Nat) (st : Option String)
    (oa : Option Nat) (ol : Option (List String)) (sflag : Bool) (b : Board)
    (hb : alist_lookup m.boards bid = some b) :
    list_issues m bid st oa ol sflag =
      Except.ok ((fun l => if sflag then priority_sort l else l)
        ((b.issues.map Prod.snd).filter
          (fun i => status_pred st i && assignee_pred oa i && labels_pred ol i))) := by
  rcases st with _ | s <;> rcases oa with _ | a <;> rcases ol with _ | ls <;>
    simp only [list_issues, hb, status_pred, assignee_pred, labels_pred] <;>
    split_ifs <;>
    simp_all [filter_swap, filter_true_eq] <;>
    first
      | exact List.filter_congr (fun i _ => by
          simp [Bool.and_comm, Bool.and_assoc, Bool.and_left_comm])
      | exact congrArg priority_sort (List.filter_congr (fun i _ => by
          simp [Bool.and_comm, Bool.and_assoc, Bool.and_left_comm]))

theorem list_issues_eq_filter_false (m : BoardManager) (bid : Nat) (st : Option String)
    (oa : Option Nat) (ol : Option (List String)) (b : Board)
    (hb : alist_lookup m.boards bid = some b) :
    list_issues m bid st oa ol false =
      Except.ok ((b.issues.map Prod.snd).filter
        (fun i => status_pred st i && assignee_pred oa i && labels_pred ol i)) := by
  simpa using list_issues_eq_filter m bid st oa ol false b hb

theorem list_issues_eq_filter_true (m : BoardManager) (bid : Nat) (st : Option String)
    (oa : Option Nat) (ol : Option (List String)) (b : Board)
    (hb : alist_lookup m.boards bid = some b) :
    list_issues m bid st oa ol true =
      Except.ok (priority_sort ((b.issues.map Prod.snd).filter
        (fun i => status_pred st i && assignee_pred oa i && labels_pred ol i))) := by
  simpa using list_issues_eq_filter m bid st oa ol true b hb

theorem preds_eq_matches (st : Option String) (oa : Option Nat) (ol : Option (List String))
    (hst : st ≠ some "") (i : Issue) :
    (status_pred st i && assignee_pred oa i && labels_pred ol i) =
      matches_all_filters st oa ol i := by
  rcases st with _ | s <;> rcases oa with _ | a <;> rcases ol with _ | ls <;>
    simp_all [status_pred, assignee_pred, labels_pred, matches_all_filters, ne_eq,
      Option.some.injEq] <;>
    by_cases hls : ls = [] <;> simp_all

/-- The run creating four issues with priorities 300, 100, 100, 200 in that
order. -/
def c5_ops : List (Op × String) :=
  [(Op.create_board "b", "T1"),
   (Op.create_issue 1 "p300" "" none none 300, "T2"),
   (Op.create_issue 1 "p100a" "" none none 100, "T3"),
   (Op.create_issue 1 "p100b" "" none none 100, "T4"),
   (Op.create_issue 1 "p200" "" none none 200, "T5")]

/-- The priority-300 issue of `c5_ops` (created first, id 2). -/
def c5_i1 : Issue :=
  { id := 2, title := "p300", description := "", status := "todo", assignee_id := none,
    labels := [], priority := 300, comments := [], created_at := "T2", updated_at := "T2" }

/-- The first priority-100 issue of `c5_ops` (id 3). -/
def c5_i2 : Issue :=
  { id := 3, title := "p100a", description := "", status := "todo", assignee_id := none,
    labels := [], priority := 100, comments := [], created_at := "T3", updated_at := "T3" }

/-- The second priority-100 issue of `c5_ops` (id 4). -/
def c5_i3 : Issue :=
  { id := 4, title := "p100b", description := "", status := "todo", assignee_id := none,
    labels := [], priority := 100, comments := [], created_at := "T4", updated_at := "T4" }

/-- The priority-200 issue of `c5_ops` (id 5). -/
def c5_i4 : Issue :=
  { id := 5, title := "p200", description := "", status := "todo", assignee_id := none,
    labels := [], priority := 200, comments := [], created_at := "T5", updated_at := "T5" }

/-- The board reached by `c5_ops`. -/
def c5_board_w : Board :=
  { id := 1, name := "b", projects := [],
    issues := [(2, c5_i1), (3, c5_i2), (4, c5_i3), (5, c5_i4)], sprints := [] }

/-- C5, amended: a provided empty status string is skipped (Python
truthiness) rather than matched against; an empty labels list is likewise
skipped, which coincides with subset matching.  With that reading,
`list_issues` returns exactly the issues matching all provided filters
conjunctively, in insertion (creation) order; with `sort_by_priority` it
returns the same issues stably sorted ascending by priority (sorted, a
permutation of the filtered list, with equal priorities keeping their
relative order); and on priorities [300, 100, 100, 200] created in that
order it returns priority order [100, 100, 200, 300] with the two
priority-100 issues in creation order. -/
theorem list_issues_filter_sort :
    (∀ (m : BoardManager) (bid : Nat) (st : Option String) (oa : Option Nat)
        (ol : Option (List String)) (b : Board),
        alist_lookup m.boards bid = some b → st ≠ some "" →
        list_issues m bid st oa ol false =
            Except.ok ((b.issues.map Prod.snd).filter (matches_all_filters st oa ol)) ∧
        list_issues m bid st oa ol true =
            Except.ok (priority_sort
              ((b.issues.map Prod.snd).filter (matches_all_filters st oa ol)))) ∧
    (∀ l : List Issue,
        List.Pairwise (fun x y => x.priority ≤ y.priority) (priority_sort l) ∧
        (priority_sort l).Perm l ∧
        (∀ p : Int, (priority_sort l).filter (fun i => i.priority == p) =
            l.filter (fun i => i.priority == p))) ∧
    list_issues (run_ops init_state c5_ops) 1 none none none true =
      Except.ok [c5_i2, c5_i3, c5_i4, c5_i1] := by
  refine ⟨?_, fun l => ⟨priority_sort_sorted l, priority_sort_perm l,
    fun p => priority_sort_stable l p⟩, by decide⟩
  intro m bid st oa ol b hb hst
  have h0 := list_issues_eq_filter_false m bid st oa ol b hb
  have h1 := list_issues_eq_filter_true m bid st oa ol b hb
  rw [List.filter_congr (fun i _ => preds_eq_matches st oa ol hst i)] at h0 h1
  exact ⟨h0, h1⟩

/-- C5 counterexample: `list_issues` with the provided status filter `""`
returns an issue whose status is `"todo"`, which does not match the
provided filter — `if status:` skips the empty string (Python truthiness),
so the claim as stated fails for a provided empty status. -/
theorem list_issues_empty_status_cex :
    list_issues (run_ops init_state c2_ops) 1 (some "") none none false =
        Except.ok [c6_issue_w] ∧
    matches_all_filters (some "") none none c6_issue_w = false := by
  decide

/-- Witness for `list_issues_filter_sort` on a concrete run with a provided
status filter. -/
theorem list_issues_filter_sort_witness :
    list_issues (run_ops init_state c5_ops) 1 (some "todo") none none false =
        Except.ok ((c5_board_w.issues.map Prod.snd).filter
          (matches_all_filters (some "todo") none none)) ∧
    list_issues (run_ops init_state c5_ops) 1 (some "todo") none none true =
        Except.ok (priority_sort ((c5_board_w.issues.map Prod.snd).filter
          (matches_all_filters (some "todo") none none))) :=
  list_issues_filter_sort.1 (run_ops init_state c5_ops) 1 (some "todo") none none
    c5_board_w (by decide) (by decide)

theorem start_at_or_keeps (old : Option String) (t1 t2 : String) (h : t1 ≠ "") :
    start_at_or (start_at_or old t1) t2 = start_at_or old t1 := by
  cases old with
  | none => simp [start_at_or, h]
  | some u => by_cases hu : u = "" <;> simp [start_at_or, hu, h]

/-- C7: `start_sprint` sets `active` and sets `start_at` to now only when it
was previously unset, so a second start keeps the first start time;
`close_sprint` clears `active` and always overwrites `end_at` with now, so a
second close updates the timestamp again.  The `t1 ≠ ""` hypothesis records
that `isoformat()` timestamps are never empty (Python's `or` would treat an
empty string like `None`). -/
theorem sprint_start_close_timestamps :
    ∀ (m : BoardManager) (bid sid : Nat) (b : Board) (sp : Sprint) (t1 t2 : String),
      alist_lookup m.boards bid = some b → alist_lookup b.sprints sid = some sp →
      t1 ≠ "" →
      (∀ sp1 m1, start_sprint m bid sid t1 = Except.ok (sp1, m1) →
        sp1.active = true ∧
        (sp.start_at = none → sp1.start_at = some t1) ∧
        (∀ u, sp.start_at = some u → u ≠ "" → sp1.start_at = some u) ∧
        (∀ sp2 m2, start_sprint m1 bid sid t2 = Except.ok (sp2, m2) →
          sp2.start_at = sp1.start_at)) ∧
      (∀ sp1 m1, close_sprint m bid sid t1 = Except.ok (sp1, m1) →
        sp1.active = false ∧ sp1.end_at = some t1 ∧
        (∀ sp2 m2, close_sprint m1 bid sid t2 = Except.ok (sp2, m2) →
          sp2.end_at = some t2)) := by
  intro m bid sid b sp t1 t2 hb hs ht1
  constructor
  · intro sp1 m1 h1
    simp only [start_sprint, hb, hs, Except.ok.injEq, Prod.mk.injEq] at h1
    obtain ⟨h1a, h1b⟩ := h1
    subst h1a
    subst h1b
    refine ⟨rfl, ?_, ?_, ?_⟩
    · intro hnone
      simp [start_at_or, hnone]
    · intro u hu hune
      simp [start_at_or, hu, hune]
    · intro sp2 m2 h2
      simp only [start_sprint, alist_lookup_insert_self, Except.ok.injEq,
        Prod.mk.injEq] at h2
      rw [← h2.1]
      exact start_at_or_keeps sp.start_at t1 t2 ht1
  · intro sp1 m1 h1
    simp only [close_sprint, hb, hs, Except.ok.injEq, Prod.mk.injEq] at h1
    obtain ⟨h1a, h1b⟩ := h1
    subst h1a
    subst h1b
    refine ⟨rfl, rfl, ?_⟩
    intro sp2 m2 h2
    simp only [close_sprint, alist_lookup_insert_self, Except.ok.injEq,
      Prod.mk.injEq] at h2
    rw [← h2.1]

/-- The run creating a board and one sprint, for the C7 witness. -/
def c7_ops : List (Op × String) :=
  [(Op.create_board "b", "T1"), (Op.create_sprint 1 "s", "T2")]

/-- The sprint created by `c7_ops` (id 2, not yet started). -/
def c7_sprint_w : Sprint :=
  { id := 2, name := "s", start_at := none, end_at := none, issues := [], active := false }

/-- The board reached by `c7_ops`. -/
def c7_board_w : Board :=
  { id := 1, name := "b", projects := [], issues := [], sprints := [(2, c7_sprint_w)] }

/-- The sprint after the first `start_sprint` at time S1. -/
def c7_sp1 : Sprint :=
  { id := 2, name := "s", start_at := some "S1", end_at := none, issues := [],
    active := true }

/-- The state after the first `start_sprint` at time S1. -/
def c7_m1 : BoardManager :=
  { boards := [(1, { id := 1, name := "b", projects := [], issues := [],
                     sprints := [(2, c7_sp1)] })],
    users := [], next_id := 3 }

/-- The sprint after the second `start_sprint` at time S2 (unchanged). -/
def c7_sp2 : Sprint :=
  { id := 2, name := "s", start_at := some "S1", end_at := none, issues := [],
    active := true }

/-- The state after the second `start_sprint` at time S2 (unchanged). -/
def c7_m2 : BoardManager :=
  { boards := [(1, { id := 1, name := "b", projects := [], issues := [],
                     sprints := [(2, c7_sp2)] })],
    users := [], next_id := 3 }

/-- The sprint after the first `close_sprint` at time C1. -/
def c7_cl1 : Sprint :=
  { id := 2, name := "s", start_at := none, end_at := some "C1", issues := [],
    active := false }

/-- The state after the first `close_sprint` at time C1. -/
def c7_mc1 : BoardManager :=
  { boards := [(1, { id := 1, name := "b", projects := [], issues := [],
                     sprints := [(2, c7_cl1)] })],
    users := [], next_id := 3 }

/-- The sprint after the second `close_sprint` at time C2. -/
def c7_cl2 : Sprint :=
  { id := 2, name := "s", start_at := none, end_at := some "C2", issues := [],
    active := false }

/-- The state after the second `close_sprint` at time C2. -/
def c7_mc2 : BoardManager :=
  { boards := [(1, { id := 1, name := "b", projects := [], issues := [],
                     sprints := [(2, c7_cl2)] })],
    users := [], next_id := 3 }

/-- Witness for `sprint_start_close_timestamps` on a concrete run: starting
twice keeps S1; closing twice overwrites C1 with C2. -/
theorem sprint_start_close_timestamps_witness :
    c7_sp1.active = true ∧ c7_sp1.start_at = some "S1" ∧
    c7_sp2.start_at = c7_sp1.start_at ∧
    c7_cl1.active = false ∧ c7_cl1.end_at = some "C1" ∧ c7_cl2.end_at = some "C2" := by
  have hS := sprint_start_close_timestamps (run_ops init_state c7_ops) 1 2 c7_board_w
    c7_sprint_w "S1" "S2" (by decide) (by decide) (by decide)
  have hC := sprint_start_close_timestamps (run_ops init_state c7_ops) 1 2 c7_board_w
    c7_sprint_w "C1" "C2" (by decide) (by decide) (by decide)
  have h1 := hS.1 c7_sp1 c7_m1 (by decide)
  have h2 := hC.2 c7_cl1 c7_mc1 (by decide)
  exact ⟨h1.1, h1.2.1 rfl, h1.2.2.2 c7_sp2 c7_m2 (by decide), h2.1, h2.2.1,
    h2.2.2 c7_cl2 c7_mc2 (by decide)⟩

/-- C8, amended: `add_label` is idempotent — a second call with the same
label returns the same issue and leaves the manager state unchanged — and
`add_label` preserves duplicate-freeness of every stored labels list, so it
never introduces a duplicate label.  (The unqualified "labels never contain
duplicates" fails on the code: `create_issue` stores a caller-supplied
duplicate list verbatim, see the counterexample.) -/
theorem add_label_idempotent :
    (∀ (m : BoardManager) (bid iid : Nat) (lab t1 t2 : String) (i1 : Issue)
        (m1 : BoardManager),
        add_label m bid iid lab t1 = Except.ok (i1, m1) →
        add_label m1 bid iid lab t2 = Except.ok (i1, m1)) ∧
    (∀ (m : BoardManager) (bid iid : Nat) (lab t : String) (i1 : Issue)
        (m1 : BoardManager),
        add_label m bid iid lab t = Except.ok (i1, m1) →
        (∀ p ∈ m.boards, ∀ q ∈ (Prod.snd p).issues, (Prod.snd q).labels.Nodup) →
        ∀ p ∈ m1.boards, ∀ q ∈ (Prod.snd p).issues, (Prod.snd q).labels.Nodup) := by
  constructor
  · intro m bid iid lab t1 t2 i1 m1 h1
    cases hb : alist_lookup m.boards bid with
    | none => simp only [add_label, hb] at h1; exact absurd h1 (by simp)
    | some b =>
      cases hi : alist_lookup b.issues iid with
      | none => simp only [add_label, hb, hi] at h1; exact absurd h1 (by simp)
      | some i =>
        by_cases hl : lab ∈ i.labels
        · simp only [add_label, hb, hi, if_pos hl, Except.ok.injEq, Prod.mk.injEq] at h1
          obtain ⟨h1a, h1b⟩ := h1
          subst h1a; subst h1b
          simp [add_label, hb, hi, hl]
        · simp only [add_label, hb, hi, if_neg hl, Except.ok.injEq, Prod.mk.injEq] at h1
          obtain ⟨h1a, h1b⟩ := h1
          subst h1a; subst h1b
          simp [add_label, alist_lookup_insert_self]
  · intro m bid iid lab t i1 m1 h1 hnd
    cases hb : alist_lookup m.boards bid with
    | none => simp only [add_label, hb] at h1; exact absurd h1 (by simp)
    | some b =>
      cases hi : alist_lookup b.issues iid with
      | none => simp only [add_label, hb, hi] at h1; exact absurd h1 (by simp)
      | some i =>
        by_cases hl : lab ∈ i.labels
        · simp only [add_label, hb, hi, if_pos hl, Except.ok.injEq, Prod.mk.injEq] at h1
          obtain ⟨h1a, h1b⟩ := h1
          subst h1b
          exact hnd
        · simp only [add_label, hb, hi, if_neg hl, Except.ok.injEq, Prod.mk.injEq] at h1
          obtain ⟨h1a, h1b⟩ := h1
          subst h1a; subst h1b
          intro p hp q hq
          rcases alist_mem_insert hp with hpe | hpe
          · rw [hpe] at hq
            rcases alist_mem_insert hq with hqe | hqe
            · rw [hqe]
              have hin : i.labels.Nodup :=
                hnd _ (alist_lookup_mem hb) _ (alist_lookup_mem hi)
              rw [List.nodup_append]
              refine ⟨hin, List.nodup_singleton _, ?_⟩
              intro a ha hcon
              rw [List.mem_singleton] at hcon
              exact hl (hcon ▸ ha)
            · exact hnd _ (alist_lookup_mem hb) q hqe
          · exact hnd p hpe q hq

/-- The issue with a duplicate label list stored verbatim by
`create_issue`. -/
def c8_dup_issue : Issue :=
  { id := 2, title := "i", description := "", status := "todo", assignee_id := none,
    labels := ["a", "a"], priority := 100, comments := [], created_at := "T2",
    updated_at := "T2" }

/-- C8 counterexample: `create_issue` with `labels=["a", "a"]` stores the
duplicate list verbatim, so an issue's labels list can contain duplicate
values — the unqualified no-duplicates claim fails. -/
theorem labels_nodup_cex :
    get_issue (run_ops init_state
        [(Op.create_board "b", "T1"),
         (Op.create_issue 1 "i" "" none (some ["a", "a"]) 100, "T2")]) 1 2 =
      Except.ok c8_dup_issue ∧
    ¬ c8_dup_issue.labels.Nodup := by
  decide

/-- The issue after adding label x to the issue of `c2_ops`. -/
def c8_i1 : Issue :=
  { id := 2, title := "i", description := "", status := "todo", assignee_id := none,
    labels := ["x"], priority := 100, comments := [], created_at := "T2",
    updated_at := "T3" }

/-- The state after adding label x once. -/
def c8_m1 : BoardManager :=
  { boards := [(1, { id := 1, name := "b", projects := [],
                     issues := [(2, c8_i1)], sprints := [] })],
    users := [], next_id := 3 }

/-- Witness for `add_label_idempotent`: the second identical `add_label`
returns the same issue and state. -/
theorem add_label_idempotent_witness :
    add_label c8_m1 1 2 "x" "T4" = Except.ok (c8_i1, c8_m1) :=
  add_label_idempotent.1 (run_ops init_state c2_ops) 1 2 "x" "T3" "T4" c8_i1 c8_m1
    (by decide)

theorem map_id_of_forall {α : Type} (l : List α) (f : α → α) (h : ∀ a ∈ l, f a = a) :
    l.map f = l := by
  induction l with
  | nil => rfl
  | cons x t ih =>
    rw [List.map_cons, h x (List.mem_cons_self x t),
      ih (fun a ha => h a (List.mem_cons_of_mem x ha))]

theorem foldl_insert_map {α β : Type} (f : Nat × α → β) :
    ∀ (l : List (Nat × α)) (acc : List (Nat × β)),
      (l.map Prod.fst).Nodup →
      (∀ p ∈ l, p.1 ∉ acc.map Prod.fst) →
      l.foldl (fun a p => alist_insert a p.1 (f p)) acc =
        acc ++ l.map (fun p => (p.1, f p)) := by
  intro l
  induction l with
  | nil => intro acc _ _; simp
  | cons q t ih =>
    intro acc hnd hdis
    rw [List.map_cons, List.nodup_cons] at hnd
    have hdis2 : ∀ p ∈ t, p.1 ∉ (acc ++ [(q.1, f q)]).map Prod.fst := by
      intro p hp
      rw [List.map_append, List.mem_append]
      push_neg
      refine ⟨hdis p (List.mem_cons_of_mem q hp), ?_⟩
      intro hc
      rw [List.map_singleton, List.mem_singleton] at hc
      exact hnd.1 (hc ▸ List.mem_map_of_mem Prod.fst hp)
    rw [List.foldl_cons,
      alist_insert_not_mem_keys acc q.1 (f q) (hdis q (List.mem_cons_self q t)),
      ih (acc ++ [(q.1, f q)]) hnd.2 hdis2]
    simp

theorem comment_roundtrip (now : String) (c : Comment) :
    comment_of_payload now (comment_to_payload c) = c := rfl

theorem sprint_roundtrip (s : Sprint) :
    sprint_of_payload s.id (sprint_to_payload s) = s := rfl

theorem issue_roundtrip (now : String) (k : Nat) (i : Issue) (hk : i.id = k) :
    issue_of_payload now k (issue_to_payload i) = i := by
  subst hk
  show ({ id := i.id, title := i.title, description := i.description, status := i.status,
          assignee_id := i.assignee_id, labels := i.labels, priority := i.priority,
          comments := (i.comments.map comment_to_payload).map (comment_of_payload now),
          created_at := i.created_at, updated_at := i.updated_at } : Issue) = i
  rw [List.map_map, map_id_of_forall]
  intro c hc
  rfl

theorem import_issues_roundtrip (now : String) (l : List (Nat × Issue))
    (hk : (l.map Prod.fst).Nodup) (hid : ∀ p ∈ l, (Prod.snd p).id = Prod.fst p) :
    (l.map (fun p => (p.1, issue_to_payload p.2))).foldl
        (fun acc p => alist_insert acc p.1 (issue_of_payload now p.1 p.2)) [] = l := by
  rw [foldl_insert_map (fun p => issue_of_payload now p.1 p.2)]
  · rw [List.nil_append, List.map_map]
    apply map_id_of_forall
    intro p hp
    show (p.1, issue_of_payload now p.1 (issue_to_payload p.2)) = p
    rw [issue_roundtrip now p.1 p.2 (hid p hp)]
  · rw [List.map_map]
    exact hk
  · intro p hp
    simp

theorem import_sprints_roundtrip (l : List (Nat × Sprint))
    (hk : (l.map Prod.fst).Nodup) (hid : ∀ p ∈ l, (Prod.snd p).id = Prod.fst p) :
    (l.map (fun p => (p.1, sprint_to_payload p.2))).foldl
        (fun acc p => alist_insert acc p.1 (sprint_of_payload p.1 p.2)) [] = l := by
  rw [foldl_insert_map (fun p => sprint_of_payload p.1 p.2)]
  · rw [List.nil_append, List.map_map]
    apply map_id_of_forall
    intro p hp
    show (p.1, sprint_of_payload p.1 (sprint_to_payload p.2)) = p
    rw [← hid p hp, sprint_roundtrip, hid p hp]
  · rw [List.map_map]
    exact hk
  · intro p hp
    simp

theorem board_roundtrip (m : BoardManager) (b : Board) (now : String)
    (hik : (b.issues.map Prod.fst).Nodup) (hsk : (b.sprints.map Prod.fst).Nodup)
    (hiid : ∀ p ∈ b.issues, (Prod.snd p).id = Prod.fst p)
    (hsid : ∀ p ∈ b.sprints, (Prod.snd p).id = Prod.fst p) :
    (import_board m (board_to_payload b) now).1 = b := by
  show ({ id := b.id, name := b.name, projects := b.projects,
          issues := (b.issues.map (fun p => (p.1, issue_to_payload p.2))).foldl
            (fun acc p => alist_insert acc p.1 (issue_of_payload now p.1 p.2)) [],
          sprints := (b.sprints.map (fun p => (p.1, sprint_to_payload p.2))).foldl
            (fun acc p => alist_insert acc p.1 (sprint_of_payload p.1 p.2)) [] } : Board) = b
  rw [import_issues_roundtrip now b.issues hik hiid,
    import_sprints_roundtrip b.sprints hsk hsid]

/-- C1, amended: restricted to boards whose stored issue and sprint ids
agree with their map keys (with uniquely-keyed maps, as the dict
representation guarantees) — `update_issue` can desynchronize an issue's id
from its key through its `id` field, and `import_board` then rebuilds ids
from the keys, see the counterexample.  For every such registered board,
`export_board` followed by `import_board` on the result reconstructs and
registers a Board field-wise equal to the original: same name, projects,
issues with every Issue field and nested Comments, and sprints with every
Sprint field and issue-reference list. -/
theorem export_import_roundtrip :
    ∀ (m : BoardManager) (bid : Nat) (b : Board) (now : String),
      alist_lookup m.boards bid = some b →
      (b.issues.map Prod.fst).Nodup → (b.sprints.map Prod.fst).Nodup →
      (∀ p ∈ b.issues, (Prod.snd p).id = Prod.fst p) →
      (∀ p ∈ b.sprints, (Prod.snd p).id = Prod.fst p) →
      export_board m bid = Except.ok (board_to_payload b) ∧
      (import_board m (board_to_payload b) now).1 = b ∧
      alist_lookup (import_board m (board_to_payload b) now).2.boards b.id = some b := by
  intro m bid b now hb hik hsk hiid hsid
  have h2 : (import_board m (board_to_payload b) now).1 = b :=
    board_roundtrip m b now hik hsk hiid hsid
  refine ⟨by simp [export_board, hb], h2, ?_⟩
  have h3 : (import_board m (board_to_payload b) now).2.boards =
      alist_insert m.boards b.id (import_board m (board_to_payload b) now).1 := rfl
  rw [h3, h2, alist_lookup_insert_self]

/-- The run that desynchronizes an issue's id from its key via
`update_issue`. -/
def c1_desync_ops : List (Op × String) :=
  [(Op.create_board "b", "T1"),
   (Op.create_issue 1 "i" "" none none 100, "T2"),
   (Op.update_issue 1 2 [FieldUpdate.set_id 99], "T3")]

/-- The board reached by `c1_desync_ops`: the issue is stored under key 2
but carries id 99. -/
def c1_desync_board : Board :=
  { id := 1, name := "b", projects := [],
    issues := [(2, { id := 99, title := "i", description := "", status := "todo",
                     assignee_id := none, labels := [], priority := 100, comments := [],
                     created_at := "T2", updated_at := "T3" })],
    sprints := [] }

/-- C1 counterexample: a Board reachable by the manager's operations (via
`update_issue` with an `id` field) on which export followed by import is
not field-wise equal to the original — `import_board` rebuilds the issue id
from the map key, replacing 99 by 2. -/
theorem export_import_roundtrip_cex :
    alist_lookup (run_ops init_state c1_desync_ops).boards 1 = some c1_desync_board ∧
    export_board (run_ops init_state c1_desync_ops) 1 =
      Except.ok (board_to_payload c1_desync_board) ∧
    (import_board (run_ops init_state c1_desync_ops)
        (board_to_payload c1_desync_board) "T4").1 ≠ c1_desync_board := by
  decide

/-- The spec's concrete round-trip example: two issues (one with two labels
and one comment, one bare) and one sprint listing both, started. -/
def c1_ops : List (Op × String) :=
  [(Op.create_board "b", "T1"),
   (Op.create_user "u", "T2"),
   (Op.create_issue 1 "i1" "" none (some ["l1", "l2"]) 100, "T3"),
   (Op.create_issue 1 "i2" "" none none 100, "T4"),
   (Op.add_comment 1 3 2 "hello", "T5"),
   (Op.create_sprint 1 "s", "T6"),
   (Op.add_issue_to_sprint 1 6 3, "T7"),
   (Op.add_issue_to_sprint 1 6 4, "T8"),
   (Op.start_sprint 1 6, "T9")]

/-- The board reached by `c1_ops`. -/
def c1_board_w : Board :=
  { id := 1, name := "b", projects := [],
    issues :=
      [(3, { id := 3, title := "i1", description := "", status := "todo",
             assignee_id := none, labels := ["l1", "l2"], priority := 100,
             comments := [{ id := 5, author_id := 2, body := "hello",
                            created_at := "T5" }],
             created_at := "T3", updated_at := "T5" }),
       (4, { id := 4, title := "i2", description := "", status := "todo",
             assignee_id := none, labels := [], priority := 100, comments := [],
             created_at := "T4", updated_at := "T4" })],
    sprints := [(6, { id := 6, name := "s", start_at := some "T9", end_at := none,
                      issues := [3, 4], active := true })] }

/-- Witness for `export_import_roundtrip` on the spec's concrete example. -/
theorem export_import_roundtrip_witness :
    export_board (run_ops init_state c1_ops) 1 =
        Except.ok (board_to_payload c1_board_w) ∧
    (import_board (run_ops init_state c1_ops) (board_to_payload c1_board_w) "TA").1 =
        c1_board_w ∧
    alist_lookup (import_board (run_ops init_state c1_ops)
        (board_to_payload c1_board_w) "TA").2.boards c1_board_w.id =
      some c1_board_w :=
  export_import_roundtrip (run_ops init_state c1_ops) 1 c1_board_w "TA" (by decide)
    (by decide) (by decide) (by decide) (by decide)
